import Mathlib

/-!
Verification of the work-order indexing core of the `teeitup` repository.

The development shallowly embeds the Python sources
`src/wo_1_simple_implementation.py` and `src/work_order_indexer.py`
(whose `WorkOrder` / `WorkOrderIndex` code is line-for-line identical;
one Lean model covers both).  Python `dict`s are modelled as
insertion-ordered association lists, Python `datetime` values as a
seven-field record, machine integers as `Nat`/`Int` with explicit
`% 2 ^ 32` where the MD5 hash needs 32-bit wrap-around, and raising
code as `Except` / `Option` results.  All definitions are executable.
-/

namespace TeeItUp

/-! ## Insertion-ordered dictionaries (Python `dict` semantics)

Python 3.7+ `dict`s preserve insertion order; assigning to an existing
key updates the value in place (keeping the key's position), assigning
a fresh key appends it.  `d.values()` / `d.items()` iterate in that
order.  We model a dict as an association list with those operations. -/

/-- Lookup, `d.get(k)` / `k in d`. -/
def dget? {κ α : Type} [DecidableEq κ] (d : List (κ × α)) (k : κ) : Option α :=
  match d with
  | [] => none
  | (k', v) :: rest => if k = k' then some v else dget? rest k

/-- Lookup with default, `d.get(k, dflt)`. -/
def dgetD {κ α : Type} [DecidableEq κ] (d : List (κ × α)) (k : κ) (dflt : α) : α :=
  (dget? d k).getD dflt

/-- Assignment `d[k] = v`: replace in place if the key exists, else append. -/
def dinsert {κ α : Type} [DecidableEq κ] (d : List (κ × α)) (k : κ) (v : α) :
    List (κ × α) :=
  match d with
  | [] => [(k, v)]
  | (k', v') :: rest =>
      if k = k' then (k, v) :: rest else (k', v') :: dinsert rest k v

/-- The pattern `if k not in d: d[k] = []` followed by `d[k].append(x)`. -/
def dappend {κ α : Type} [DecidableEq κ] (d : List (κ × List α)) (k : κ) (x : α) :
    List (κ × List α) :=
  match d with
  | [] => [(k, [x])]
  | (k', v') :: rest =>
      if k = k' then (k, v' ++ [x]) :: rest else (k', v') :: dappend rest k x

/-- The search-index pattern: ensure the key, then append `x` only when it is
not already in the key's list (`if work_order.id not in self.search_index[word]`). -/
def dappendNew {κ α : Type} [DecidableEq κ] [DecidableEq α]
    (d : List (κ × List α)) (k : κ) (x : α) : List (κ × List α) :=
  match d with
  | [] => [(k, [x])]
  | (k', v') :: rest =>
      if k = k' then (k, if x ∈ v' then v' else v' ++ [x]) :: rest
      else (k', v') :: dappendNew rest k x

/-- `d.values()`, in insertion order. -/
def dvalues {κ α : Type} (d : List (κ × α)) : List α := d.map (·.2)

/-- `d.keys()`, in insertion order. -/
def dkeys {κ α : Type} (d : List (κ × α)) : List κ := d.map (·.1)

/-! ## ASCII string helpers

The sources use `str.lower()` and the regex `\b\w+\b`.  We model the
ASCII fragment (all claim-relevant data is ASCII): `\w` is
alphanumeric-or-underscore, `lower` maps `A`–`Z` to `a`–`z`. -/

/-- ASCII `str.lower()` on one character. -/
def asciiLower (c : Char) : Char :=
  if 'A' ≤ c ∧ c ≤ 'Z' then Char.ofNat (c.toNat + 32) else c

/-- `s.lower()` (ASCII fragment). -/
def pyLower (s : String) : String := String.mk (s.data.map asciiLower)

/-- Word character of the regex `\w` (ASCII fragment). -/
def isWordChar (c : Char) : Bool := c.isAlphanum || c = '_'

/-- Splits a character list into the maximal runs of word characters,
the ASCII semantics of `re.findall(r'\b\w+\b', s)`.  `run` accumulates
the current word in reverse. -/
def findWordsAux : List Char → List Char → List String
  | [], [] => []
  | [], run => [String.mk run.reverse]
  | c :: cs, run =>
      if isWordChar c then findWordsAux cs (c :: run)
      else match run with
        | [] => findWordsAux cs []
        | _ => String.mk run.reverse :: findWordsAux cs []

/-- `re.findall(r'\b\w+\b', s)` (ASCII fragment). -/
def pyFindWords (s : String) : List String := findWordsAux s.data []

/-- `' '.join(tags)`. -/
def joinSpace : List String → String
  | [] => ""
  | [t] => t
  | t :: ts => t ++ " " ++ joinSpace ts

/-! ## Enumerations (`WorkOrderStatus`, `WorkOrderPriority`) -/

/-- Enumeration `WorkOrderStatus` of the sources. -/
inductive WorkOrderStatus where
  | QUEUED | IN_PROGRESS | COMPLETED | FAILED | CANCELLED
  | PENDING_APPROVAL | ON_HOLD
deriving DecidableEq, Repr

/-- The declaration order used by `for status in WorkOrderStatus`. -/
def WorkOrderStatus.all : List WorkOrderStatus :=
  [.QUEUED, .IN_PROGRESS, .COMPLETED, .FAILED, .CANCELLED,
   .PENDING_APPROVAL, .ON_HOLD]

/-- `status.value`. -/
def WorkOrderStatus.value : WorkOrderStatus → String
  | .QUEUED => "queued"
  | .IN_PROGRESS => "in_progress"
  | .COMPLETED => "completed"
  | .FAILED => "failed"
  | .CANCELLED => "cancelled"
  | .PENDING_APPROVAL => "pending_approval"
  | .ON_HOLD => "on_hold"

/-- The enum constructor call `WorkOrderStatus(s)`: the member whose value
is `s`, or an error (`ValueError`) when no member matches. -/
def WorkOrderStatus.ofValue? (s : String) : Option WorkOrderStatus :=
  WorkOrderStatus.all.find? (fun st => st.value = s)

/-- Enumeration `WorkOrderPriority` of the sources. -/
inductive WorkOrderPriority where
  | LOW | MEDIUM | HIGH | URGENT | CRITICAL
deriving DecidableEq, Repr

/-- The declaration order used by `for priority in WorkOrderPriority`. -/
def WorkOrderPriority.all : List WorkOrderPriority :=
  [.LOW, .MEDIUM, .HIGH, .URGENT, .CRITICAL]

/-- `priority.value`. -/
def WorkOrderPriority.value : WorkOrderPriority → String
  | .LOW => "low"
  | .MEDIUM => "medium"
  | .HIGH => "high"
  | .URGENT => "urgent"
  | .CRITICAL => "critical"

/-- The enum constructor call `WorkOrderPriority(s)`. -/
def WorkOrderPriority.ofValue? (s : String) : Option WorkOrderPriority :=
  WorkOrderPriority.all.find? (fun p => p.value = s)

/-! ## Timestamps (`datetime`)

The sources use naive `datetime` values, serialized with `isoformat()`
and parsed back with `datetime.fromisoformat` (CPython < 3.11
semantics: the character at index 10 is an arbitrary separator, the
fractional part has exactly 3 or 6 digits).  We model a `datetime` as
its seven components. -/

/-- Naive `datetime` value. -/
structure DateTime where
  year : Nat
  month : Nat
  day : Nat
  hour : Nat
  minute : Nat
  second : Nat
  micro : Nat
deriving DecidableEq, Repr

/-- Decimal digit to character. -/
def digitChar (d : Nat) : Char :=
  if d < 10 then Char.ofNat (48 + d) else '?'

/-- Character to decimal digit. -/
def charDigit? (c : Char) : Option Nat :=
  if '0' ≤ c ∧ c ≤ '9' then some (c.toNat - 48) else none

/-- Zero-padded 2-digit decimal (`%02d` for values below 100). -/
def pad2 (n : Nat) : String := String.mk [digitChar (n / 10 % 10), digitChar (n % 10)]

/-- Zero-padded 4-digit decimal (`%04d` for values below 10000). -/
def pad4 (n : Nat) : String :=
  String.mk [digitChar (n / 1000 % 10), digitChar (n / 100 % 10),
             digitChar (n / 10 % 10), digitChar (n % 10)]

/-- Zero-padded 6-digit decimal (`%06d` for values below 1000000). -/
def pad6 (n : Nat) : String :=
  String.mk [digitChar (n / 100000 % 10), digitChar (n / 10000 % 10),
             digitChar (n / 1000 % 10), digitChar (n / 100 % 10),
             digitChar (n / 10 % 10), digitChar (n % 10)]

/-- `datetime.isoformat()`: `YYYY-MM-DDTHH:MM:SS`, with `.ffffff`
appended exactly when the microsecond component is nonzero. -/
def DateTime.isoformat (t : DateTime) : String :=
  pad4 t.year ++ "-" ++ pad2 t.month ++ "-" ++ pad2 t.day ++ "T" ++
  pad2 t.hour ++ ":" ++ pad2 t.minute ++ ":" ++ pad2 t.second ++
  (if t.micro = 0 then "" else "." ++ pad6 t.micro)

/-- Gregorian leap-year test used by `datetime`. -/
def isLeapYear (y : Nat) : Bool := (y % 4 = 0 && y % 100 ≠ 0) || y % 400 = 0

/-- Days in a month, as validated by the `datetime` constructor. -/
def daysInMonth (y m : Nat) : Nat :=
  match m with
  | 2 => if isLeapYear y then 29 else 28
  | 4 => 30 | 6 => 30 | 9 => 30 | 11 => 30
  | _ => 31

/-- Component ranges accepted by the `datetime` constructor. -/
def DateTime.Valid (t : DateTime) : Prop :=
  1 ≤ t.year ∧ t.year ≤ 9999 ∧ 1 ≤ t.month ∧ t.month ≤ 12 ∧
  1 ≤ t.day ∧ t.day ≤ daysInMonth t.year t.month ∧
  t.hour < 24 ∧ t.minute < 60 ∧ t.second < 60 ∧ t.micro < 1000000

instance (t : DateTime) : Decidable t.Valid := by
  unfold DateTime.Valid; infer_instance

/-- The `datetime(...)` constructor: range-checks every component
(raising `ValueError` on failure, modelled as `none`). -/
def mkDateTime? (y mo d h mi s us : Nat) : Option DateTime :=
  if (DateTime.mk y mo d h mi s us).Valid then some ⟨y, mo, d, h, mi, s, us⟩
  else none

/-- Two-digit decimal field. -/
def parse2 (a b : Char) : Option Nat :=
  match charDigit? a, charDigit? b with
  | some x, some y => some (10 * x + y)
  | _, _ => none

/-- Four-digit decimal field. -/
def parse4 (a b c d : Char) : Option Nat :=
  match charDigit? a, charDigit? b, charDigit? c, charDigit? d with
  | some x, some y, some z, some w => some (1000 * x + 100 * y + 10 * z + w)
  | _, _, _, _ => none

/-- Fractional-seconds tail of `fromisoformat`: empty, or a dot
followed by exactly 3 (milliseconds) or 6 (microseconds) digits. -/
def parseFracTail : List Char → Option Nat
  | [] => some 0
  | '.' :: [a, b, c] =>
      match parse2 a b, charDigit? c with
      | some hi, some lo => some ((10 * hi + lo) * 1000)
      | _, _ => none
  | '.' :: [a, b, c, d, e, f] =>
      match parse4 a b c d, parse2 e f with
      | some hi, some lo => some (hi * 100 + lo)
      | _, _ => none
  | _ => none

/-- `datetime.fromisoformat` (CPython < 3.11): accepts
`YYYY-MM-DD`, `YYYY-MM-DD?HH:MM` and `YYYY-MM-DD?HH:MM:SS[.fff[fff]]`
where `?` at index 10 is an arbitrary separator character; the
components are range-checked by the `datetime` constructor.  Timezone
suffixes are not modelled (the sources only serialize naive values). -/
def fromisoformat (str : String) : Option DateTime :=
  match str.data with
  | [y1, y2, y3, y4, '-', m1, m2, '-', d1, d2] =>
      match parse4 y1 y2 y3 y4, parse2 m1 m2, parse2 d1 d2 with
      | some y, some mo, some d => mkDateTime? y mo d 0 0 0 0
      | _, _, _ => none
  | y1 :: y2 :: y3 :: y4 :: '-' :: m1 :: m2 :: '-' :: d1 :: d2 :: _sep :: tail =>
      match parse4 y1 y2 y3 y4, parse2 m1 m2, parse2 d1 d2 with
      | some y, some mo, some d =>
          match tail with
          | [h1, h2, ':', n1, n2] =>
              match parse2 h1 h2, parse2 n1 n2 with
              | some h, some mi => mkDateTime? y mo d h mi 0 0
              | _, _ => none
          | h1 :: h2 :: ':' :: n1 :: n2 :: ':' :: s1 :: s2 :: rest =>
              match parse2 h1 h2, parse2 n1 n2, parse2 s1 s2, parseFracTail rest with
              | some h, some mi, some s, some us => mkDateTime? y mo d h mi s us
              | _, _, _, _ => none
          | _ => none
      | _, _, _ => none
  | _ => none

/-! ## JSON-like raw values

Raw discovered records are JSON-compatible mappings (spec section 6).
Numbers are modelled as integers: no claim involves fractional
numeric data, and floating point is outside the embedding. -/

/-- JSON-like value. -/
inductive JsonVal where
  | null
  | bool (b : Bool)
  | num (n : Int)
  | str (s : String)
  | arr (xs : List JsonVal)
  | obj (fields : List (String × JsonVal))
deriving Repr

/-- A raw candidate mapping, as produced by the Discoverer. -/
def RawData : Type := List (String × JsonVal)

/-- Python truthiness of a JSON-like value (`if not timestamp`,
`if not wo_id`): `None`, `False`, `0`, `""` and empty containers are
falsy. -/
def pyFalsy : JsonVal → Bool
  | .null => true
  | .bool b => !b
  | .num n => n = 0
  | .str s => s = ""
  | .arr xs => xs.isEmpty
  | .obj kvs => kvs.isEmpty

/-- Projection used to state "the raw value is a string". -/
def JsonVal.asStr? : JsonVal → Option String
  | .str s => some s
  | _ => none

/-- Calling `.lower()` (or `.split`, ...) on a non-string raw value
raises `AttributeError`; the string methods succeed only on `str`. -/
def coerceStr : JsonVal → Except String String
  | .str s => .ok s
  | _ => .error "AttributeError: value has no string methods"

mutual
/-- Python `repr` of a JSON-like value (`str(data)` of a dict delegates
to `repr` for the elements).  String escaping is not modelled: the
claim-relevant inputs contain no quotes or backslashes. -/
def pyRepr : JsonVal → String
  | .null => "None"
  | .bool b => if b then "True" else "False"
  | .num n => toString n
  | .str s => "'" ++ s ++ "'"
  | .arr xs => "[" ++ pyReprList xs ++ "]"
  | .obj kvs => "\x7b" ++ pyReprObj kvs ++ "\x7d"
/-- Comma-separated `repr` sequence of a Python list. -/
def pyReprList : List JsonVal → String
  | [] => ""
  | [x] => pyRepr x
  | x :: y :: xs => pyRepr x ++ ", " ++ pyReprList (y :: xs)
/-- Comma-separated `key: value` sequence of a Python dict `repr`. -/
def pyReprObj : List (String × JsonVal) → String
  | [] => ""
  | [(k, v)] => "'" ++ k ++ "': " ++ pyRepr v
  | (k, v) :: e :: kvs => "'" ++ k ++ "': " ++ pyRepr v ++ ", " ++ pyReprObj (e :: kvs)
end

/-- Python `str(x)`: the string itself for `str` values, `repr`-style
rendering for everything else. -/
def pyStr : JsonVal → String
  | .str s => s
  | v => pyRepr v

/-! ## MD5 (`hashlib.md5(...).hexdigest()`)

The normalizer derives missing ids as
`hashlib.md5(str(data).encode()).hexdigest()[:12]`.  We embed genuine
MD5 (RFC 1321) over `Nat` with explicit wrap-around `% 2 ^ 32`. -/

/-- UTF-8 encoding of one character (`str.encode()`). -/
def charUtf8 (c : Char) : List Nat :=
  let n := c.toNat
  if n < 128 then [n]
  else if n < 2048 then [192 + n / 64, 128 + n % 64]
  else if n < 65536 then [224 + n / 4096, 128 + n / 64 % 64, 128 + n % 64]
  else [240 + n / 262144, 128 + n / 4096 % 64, 128 + n / 64 % 64, 128 + n % 64]

/-- `str.encode()`: UTF-8 bytes of a string. -/
def utf8Bytes (s : String) : List Nat := (s.data.map charUtf8).flatten

/-- Wrap to 32 bits. -/
def w32 (n : Nat) : Nat := n % 4294967296

/-- 32-bit left rotation (operand below `2 ^ 32`). -/
def rotl32 (x s : Nat) : Nat := w32 (x * 2 ^ s) + x / 2 ^ (32 - s)

/-- Round constants `K[i] = floor(2^32 * abs(sin(i + 1)))`. -/
def md5K : List Nat :=
  [3614090360, 3905402710, 606105819, 3250441966, 4118548399, 1200080426, 2821735955, 4249261313,
   1770035416, 2336552879, 4294925233, 2304563134, 1804603682, 4254626195, 2792965006, 1236535329,
   4129170786, 3225465664, 643717713, 3921069994, 3593408605, 38016083, 3634488961, 3889429448,
   568446438, 3275163606, 4107603335, 1163531501, 2850285829, 4243563512, 1735328473, 2368359562,
   4294588738, 2272392833, 1839030562, 4259657740, 2763975236, 1272893353, 4139469664, 3200236656,
   681279174, 3936430074, 3572445317, 76029189, 3654602809, 3873151461, 530742520, 3299628645,
   4096336452, 1126891415, 2878612391, 4237533241, 1700485571, 2399980690, 4293915773, 2240044497,
   1873313359, 4264355552, 2734768916, 1309151649, 4149444226, 3174756917, 718787259, 3951481745]

/-- Per-round left-rotation amounts. -/
def md5S : List Nat :=
  [7, 12, 17, 22, 7, 12, 17, 22, 7, 12, 17, 22, 7, 12, 17, 22,
   5, 9, 14, 20, 5, 9, 14, 20, 5, 9, 14, 20, 5, 9, 14, 20,
   4, 11, 16, 23, 4, 11, 16, 23, 4, 11, 16, 23, 4, 11, 16, 23,
   6, 10, 15, 21, 6, 10, 15, 21, 6, 10, 15, 21, 6, 10, 15, 21]

/-- Bitwise complement within 32 bits (operand below `2 ^ 32`). -/
def not32 (x : Nat) : Nat := 4294967295 - x

/-- One MD5 round applied to state `(a, b, c, d)`. -/
def md5Round (M : List Nat) (st : Nat × Nat × Nat × Nat) (i : Nat) :
    Nat × Nat × Nat × Nat :=
  match st with
  | (a, b, c, d) =>
    let fg : Nat × Nat :=
      if i < 16 then ((b &&& c) ||| (not32 b &&& d), i)
      else if i < 32 then ((d &&& b) ||| (not32 d &&& c), (5 * i + 1) % 16)
      else if i < 48 then (b ^^^ c ^^^ d, (3 * i + 5) % 16)
      else (c ^^^ (b ||| not32 d), (7 * i) % 16)
    let f := w32 (fg.1 + a + md5K.getD i 0 + M.getD fg.2 0)
    (d, w32 (b + rotl32 f (md5S.getD i 0)), b, c)

/-- Little-endian 32-bit word from four bytes. -/
def leWord (b0 b1 b2 b3 : Nat) : Nat :=
  b0 + 256 * b1 + 65536 * b2 + 16777216 * b3

/-- 64 bytes into 16 little-endian words. -/
def chunkWords : List Nat → List Nat
  | b0 :: b1 :: b2 :: b3 :: rest => leWord b0 b1 b2 b3 :: chunkWords rest
  | _ => []

/-- Little-endian bytes of a 32-bit word. -/
def wordLE (w : Nat) : List Nat :=
  [w % 256, w / 256 % 256, w / 65536 % 256, w / 16777216 % 256]

/-- Little-endian 8-byte encoding of the bit length. -/
def lenBytes (n : Nat) : List Nat :=
  [n % 256, n / 256 % 256, n / 65536 % 256, n / 16777216 % 256,
   n / 4294967296 % 256, n / 1099511627776 % 256,
   n / 281474976710656 % 256, n / 72057594037927936 % 256]

/-- MD5 padding: `0x80`, zeros to 56 mod 64, then the 64-bit bit length. -/
def md5Pad (msg : List Nat) : List Nat :=
  msg ++ 128 :: List.replicate ((119 - msg.length % 64) % 64) 0 ++
    lenBytes (8 * msg.length)

/-- Process one 64-byte chunk. -/
def md5Chunk (st : Nat × Nat × Nat × Nat) (chunk : List Nat) :
    Nat × Nat × Nat × Nat :=
  match st with
  | (a0, b0, c0, d0) =>
    match (List.range 64).foldl (md5Round (chunkWords chunk)) (a0, b0, c0, d0) with
    | (a, b, c, d) => (w32 (a0 + a), w32 (b0 + b), w32 (c0 + c), w32 (d0 + d))

/-- Splits into 64-byte chunks; the fuel argument (instantiated with the
list length) keeps the recursion structural. -/
def chunks64 : Nat → List Nat → List (List Nat)
  | 0, _ => []
  | _ + 1, [] => []
  | fuel + 1, l => l.take 64 :: chunks64 fuel (l.drop 64)

/-- MD5 digest (16 bytes) of a byte message. -/
def md5Bytes (msg : List Nat) : List Nat :=
  let padded := md5Pad msg
  match (chunks64 padded.length padded).foldl md5Chunk
      (1732584193, 4023233417, 2562383102, 271733878) with
  | (a, b, c, d) => wordLE a ++ wordLE b ++ wordLE c ++ wordLE d

/-- Hexadecimal digit. -/
def hexDigit (n : Nat) : Char :=
  if n < 10 then digitChar n
  else match n with
    | 10 => 'a' | 11 => 'b' | 12 => 'c' | 13 => 'd' | 14 => 'e' | _ => 'f'

/-- Two lowercase hex characters of a byte. -/
def byteHex (b : Nat) : List Char := [hexDigit (b / 16 % 16), hexDigit (b % 16)]

/-- `hashlib.md5(s.encode()).hexdigest()`. -/
def md5Hex (s : String) : String :=
  String.mk ((md5Bytes (utf8Bytes s)).map byteHex).flatten

-- RFC 1321 test vector, checking the embedding of MD5.
set_option maxRecDepth 20000 in
example : md5Hex "abc" = "900150983cd24fb0d6963f7d28e17f72" := by decide

/-! ## `WorkOrder` and its dictionary form (`to_dict` / `from_dict`) -/

/-- Dataclass `WorkOrder` (identical in both modules).  `__post_init__`
replaces `None` tags/metadata by empty containers; the embedding bakes
the defaults in. -/
structure WorkOrder where
  id : String
  title : String
  description : String
  status : WorkOrderStatus
  priority : WorkOrderPriority
  created_at : DateTime
  updated_at : DateTime
  assigned_to : Option String := none
  due_date : Option DateTime := none
  tags : List String := []
  metadata : List (String × JsonVal) := []
  source : String := "8090_factory"

/-- The dictionary produced by `WorkOrder.to_dict`: enums as their
string values, timestamps as ISO strings, everything else verbatim. -/
structure WoDict where
  id : String
  title : String
  description : String
  status : String
  priority : String
  created_at : String
  updated_at : String
  assigned_to : Option String
  due_date : Option String
  tags : List String
  metadata : List (String × JsonVal)
  source : String

/-- `WorkOrder.to_dict`.  The guard `if self.due_date:` is `datetime`
truthiness, which is simply non-`None`. -/
def WorkOrder.toDict (w : WorkOrder) : WoDict :=
  { id := w.id, title := w.title, description := w.description,
    status := w.status.value, priority := w.priority.value,
    created_at := w.created_at.isoformat,
    updated_at := w.updated_at.isoformat,
    assigned_to := w.assigned_to,
    due_date := w.due_date.map DateTime.isoformat,
    tags := w.tags, metadata := w.metadata, source := w.source }

/-- `WorkOrder.from_dict`: enum constructor calls and
`datetime.fromisoformat` raise `ValueError` on unparsable input
(modelled as `Except.error`), in the source's evaluation order
(status, priority, created, updated, due).  `if data.get('due_date'):`
skips parsing for `None` or an empty string (the latter never arises
from `to_dict` output; the untyped source would keep the raw string). -/
def WorkOrder.fromDict (d : WoDict) : Except String WorkOrder :=
  match WorkOrderStatus.ofValue? d.status with
  | none => .error ("ValueError: not a valid WorkOrderStatus: " ++ d.status)
  | some st =>
  match WorkOrderPriority.ofValue? d.priority with
  | none => .error ("ValueError: not a valid WorkOrderPriority: " ++ d.priority)
  | some pr =>
  match fromisoformat d.created_at with
  | none => .error ("ValueError: invalid isoformat string: " ++ d.created_at)
  | some ca =>
  match fromisoformat d.updated_at with
  | none => .error ("ValueError: invalid isoformat string: " ++ d.updated_at)
  | some ua =>
  match d.due_date with
  | none =>
      .ok { id := d.id, title := d.title, description := d.description,
            status := st, priority := pr, created_at := ca, updated_at := ua,
            assigned_to := d.assigned_to, due_date := none,
            tags := d.tags, metadata := d.metadata, source := d.source }
  | some sdue =>
      if sdue = "" then
        .ok { id := d.id, title := d.title, description := d.description,
              status := st, priority := pr, created_at := ca, updated_at := ua,
              assigned_to := d.assigned_to, due_date := none,
              tags := d.tags, metadata := d.metadata, source := d.source }
      else
        match fromisoformat sdue with
        | none => .error ("ValueError: invalid isoformat string: " ++ sdue)
        | some due =>
            .ok { id := d.id, title := d.title, description := d.description,
                  status := st, priority := pr, created_at := ca, updated_at := ua,
                  assigned_to := d.assigned_to, due_date := some due,
                  tags := d.tags, metadata := d.metadata, source := d.source }

/-! ## `WorkOrderIndex` -/

/-- State of a `WorkOrderIndex` instance: the primary store and the
five auxiliary dictionaries. -/
structure WorkOrderIndex where
  work_orders : List (String × WorkOrder)
  index_by_status : List (WorkOrderStatus × List String)
  index_by_priority : List (WorkOrderPriority × List String)
  index_by_assigned : List (String × List String)
  index_by_tags : List (String × List String)
  search_index : List (String × List String)

/-- `WorkOrderIndex.__init__`: empty store, status and priority buckets
pre-created for every enum member in declaration order. -/
def WorkOrderIndex.init : WorkOrderIndex :=
  { work_orders := [],
    index_by_status := WorkOrderStatus.all.map (fun s => (s, [])),
    index_by_priority := WorkOrderPriority.all.map (fun p => (p, [])),
    index_by_assigned := [],
    index_by_tags := [],
    search_index := [] }

/-- Tokens of `f"{title} {description} {' '.join(tags)}"`, lower-cased. -/
def searchableWords (w : WorkOrder) : List String :=
  pyFindWords (pyLower (w.title ++ " " ++ w.description ++ " " ++ joinSpace w.tags))

/-- `WorkOrderIndex._update_search_index`: for every token of the
record's searchable text, ensure the token's entry and append the id
unless it is already listed. -/
def updateSearchIndex (si : List (String × List String)) (w : WorkOrder) :
    List (String × List String) :=
  (searchableWords w).foldl (fun d word => dappendNew d word w.id) si

/-- `WorkOrderIndex.add_work_order`.  The status/priority buckets use
plain `append` (keys exist from `__init__`; `dappend` coincides there);
the assignee bucket is only touched for a truthy (non-`None`,
non-empty) `assigned_to`. -/
def WorkOrderIndex.addWorkOrder (idx : WorkOrderIndex) (w : WorkOrder) :
    WorkOrderIndex :=
  { work_orders := dinsert idx.work_orders w.id w,
    index_by_status := dappend idx.index_by_status w.status w.id,
    index_by_priority := dappend idx.index_by_priority w.priority w.id,
    index_by_assigned :=
      match w.assigned_to with
      | some a => if a = "" then idx.index_by_assigned
                  else dappend idx.index_by_assigned a w.id
      | none => idx.index_by_assigned,
    index_by_tags := w.tags.foldl (fun d tag => dappend d tag w.id) idx.index_by_tags,
    search_index := updateSearchIndex idx.search_index w }

/-- A sequence of `add` calls starting from some state. -/
def addAll (idx : WorkOrderIndex) (ws : List WorkOrder) : WorkOrderIndex :=
  ws.foldl WorkOrderIndex.addWorkOrder idx

/-- `WorkOrderIndex.get_work_order`. -/
def WorkOrderIndex.getWorkOrder (idx : WorkOrderIndex) (woId : String) :
    Option WorkOrder :=
  dget? idx.work_orders woId

/-- The comprehension
`[self.work_orders[i] for i in ids if i in self.work_orders]`. -/
def lookupExisting (idx : WorkOrderIndex) (ids : List String) : List WorkOrder :=
  ids.filterMap (fun i => dget? idx.work_orders i)

/-- `WorkOrderIndex.search_work_orders`: tokenize the query; for each
token found in the inverted index, seed the accumulator when it is
empty, otherwise intersect; finally look the surviving ids up.  (The
Python accumulator is a `set`; its iteration order is indeterminate,
so all properties below are stated up to membership.) -/
def WorkOrderIndex.searchWorkOrders (idx : WorkOrderIndex) (query : String) :
    List WorkOrder :=
  let queryWords := pyFindWords (pyLower query)
  let matchingIds := queryWords.foldl (fun acc word =>
    match dget? idx.search_index word with
    | none => acc
    | some l => if acc.isEmpty then l else acc.filter (fun i => l.contains i)) []
  lookupExisting idx matchingIds

/-- `WorkOrderIndex.get_work_orders_by_status`. -/
def WorkOrderIndex.getWorkOrdersByStatus (idx : WorkOrderIndex)
    (status : WorkOrderStatus) : List WorkOrder :=
  lookupExisting idx (dgetD idx.index_by_status status [])

/-- `WorkOrderIndex.get_work_orders_by_priority`. -/
def WorkOrderIndex.getWorkOrdersByPriority (idx : WorkOrderIndex)
    (priority : WorkOrderPriority) : List WorkOrder :=
  lookupExisting idx (dgetD idx.index_by_priority priority [])

/-- `WorkOrderIndex.get_work_orders_by_assigned`. -/
def WorkOrderIndex.getWorkOrdersByAssigned (idx : WorkOrderIndex)
    (assignedTo : String) : List WorkOrder :=
  lookupExisting idx (dgetD idx.index_by_assigned assignedTo [])

/-- `WorkOrderIndex.get_work_orders_by_tag`. -/
def WorkOrderIndex.getWorkOrdersByTag (idx : WorkOrderIndex) (tag : String) :
    List WorkOrder :=
  lookupExisting idx (dgetD idx.index_by_tags tag [])

/-- The record returned by `WorkOrderIndex.get_statistics`. -/
structure Statistics where
  total_work_orders : Nat
  status_distribution : List (String × Nat)
  priority_distribution : List (String × Nat)
  assigned_count : Nat
  tags_count : Nat
  search_index_size : Nat
deriving DecidableEq, Repr

/-- `WorkOrderIndex.get_statistics`: bucket sizes in dictionary
(insertion) order. -/
def WorkOrderIndex.getStatistics (idx : WorkOrderIndex) : Statistics :=
  { total_work_orders := idx.work_orders.length,
    status_distribution := idx.index_by_status.map (fun e => (e.1.value, e.2.length)),
    priority_distribution := idx.index_by_priority.map (fun e => (e.1.value, e.2.length)),
    assigned_count := idx.index_by_assigned.length,
    tags_count := idx.index_by_tags.length,
    search_index_size := idx.search_index.length }

/-- The JSON document built by `export_to_json` (modelled structurally;
the JSON text layer adds nothing the claims depend on). -/
structure ExportDoc where
  work_orders : List WoDict
  statistics : Statistics
  exported_at : String

/-- `WorkOrderIndex.export_to_json` at export time `now`. -/
def WorkOrderIndex.exportToJson (idx : WorkOrderIndex) (now : DateTime) :
    ExportDoc :=
  { work_orders := (dvalues idx.work_orders).map WorkOrder.toDict,
    statistics := idx.getStatistics,
    exported_at := now.isoformat }

/-- The loop of `import_from_json`: `from_dict` then `add_work_order`
per record.  A `from_dict` exception aborts the loop, but the adds
already applied to the (mutated-in-place) index persist: the result is
the index state paired with the raised error, if any. -/
def importLoop : WorkOrderIndex → List WoDict → WorkOrderIndex × Option String
  | idx, [] => (idx, none)
  | idx, d :: rest =>
      match WorkOrder.fromDict d with
      | .error e => (idx, some e)
      | .ok w => importLoop (idx.addWorkOrder w) rest

/-- `WorkOrderIndex.import_from_json`. -/
def WorkOrderIndex.importFromJson (idx : WorkOrderIndex) (doc : ExportDoc) :
    WorkOrderIndex × Option String :=
  importLoop idx doc.work_orders

/-! ## Record normalizer (`WorkOrderDiscovery`)

`_create_work_order_from_data` coerces an arbitrary raw mapping into a
`WorkOrder` inside a `try`/`except` that drops the record (returning
`None`) when anything raises. -/

/-- Ordered two-key fallback `data.get(k1, data.get(k2))`; a key
present with value `None` yields `JsonVal.null`, not the fallback. -/
def rawChainO2 (d : RawData) (k1 k2 : String) : Option JsonVal :=
  (dget? d k1).orElse (fun _ => dget? d k2)

/-- Ordered three-key fallback `data.get(k1, data.get(k2, data.get(k3)))`. -/
def rawChainO3 (d : RawData) (k1 k2 k3 : String) : Option JsonVal :=
  (dget? d k1).orElse (fun _ => (dget? d k2).orElse (fun _ => dget? d k3))

/-- `data.get(k1, data.get(k2, dflt))`. -/
def rawChain2 (d : RawData) (k1 k2 : String) (dflt : JsonVal) : JsonVal :=
  (rawChainO2 d k1 k2).getD dflt

/-- `data.get(k1, data.get(k2, data.get(k3, dflt)))`. -/
def rawChain3 (d : RawData) (k1 k2 k3 : String) (dflt : JsonVal) : JsonVal :=
  (rawChainO3 d k1 k2 k3).getD dflt

/-- The `status_mapping` dict literal.  (The source repeats the
`"cancelled"` entry; a Python dict keeps a single entry for it.) -/
def status_mapping : List (String × WorkOrderStatus) :=
  [("queued", .QUEUED), ("pending", .QUEUED),
   ("in_progress", .IN_PROGRESS), ("active", .IN_PROGRESS),
   ("completed", .COMPLETED), ("done", .COMPLETED),
   ("failed", .FAILED), ("error", .FAILED),
   ("cancelled", .CANCELLED),
   ("on_hold", .ON_HOLD), ("paused", .ON_HOLD)]

/-- The `priority_mapping` dict literal. -/
def priority_mapping : List (String × WorkOrderPriority) :=
  [("low", .LOW), ("medium", .MEDIUM), ("high", .HIGH),
   ("urgent", .URGENT), ("critical", .CRITICAL)]

/-- Fixed-shape `strptime(s, "%Y-%m-%d" + sep + "%H:%M:%S")` (formats 3
and 4 of `_parse_timestamp`).  `strptime` would also accept unpadded
numeric fields; no claim exercises that, and the zero-padded shape is
modelled. -/
def strptimeSep (sep : Char) (s : String) : Option DateTime :=
  match s.data with
  | [y1, y2, y3, y4, '-', m1, m2, '-', d1, d2, c, h1, h2, ':', n1, n2, ':', s1, s2] =>
      if c = sep then
        match parse4 y1 y2 y3 y4, parse2 m1 m2, parse2 d1 d2,
              parse2 h1 h2, parse2 n1 n2, parse2 s1 s2 with
        | some y, some mo, some d, some h, some mi, some sc =>
            mkDateTime? y mo d h mi sc 0
        | _, _, _, _, _, _ => none
      else none
  | _ => none

/-- `strptime(s, "%Y-%m-%dT%H:%M:%SZ")` (format 2). -/
def strptimeZ (s : String) : Option DateTime :=
  match s.data with
  | [y1, y2, y3, y4, '-', m1, m2, '-', d1, d2, 'T', h1, h2, ':', n1, n2, ':', s1, s2, 'Z'] =>
      match parse4 y1 y2 y3 y4, parse2 m1 m2, parse2 d1 d2,
            parse2 h1 h2, parse2 n1 n2, parse2 s1 s2 with
      | some y, some mo, some d, some h, some mi, some sc =>
          mkDateTime? y mo d h mi sc 0
      | _, _, _, _, _, _ => none
  | _ => none

/-- Fractional seconds of `%f`: one to six digits, scaled to
microseconds. -/
def parseMicro? (l : List Char) : Option Nat :=
  if l.length = 0 ∨ 6 < l.length then none
  else
    (l.foldl (fun acc c =>
        match acc, charDigit? c with
        | some v, some dd => some (10 * v + dd)
        | _, _ => none) (some 0)).map (fun v => v * 10 ^ (6 - l.length))

/-- `strptime(s, "%Y-%m-%dT%H:%M:%S.%fZ")` (format 1). -/
def strptimeFracZ (s : String) : Option DateTime :=
  match s.data with
  | y1 :: y2 :: y3 :: y4 :: '-' :: m1 :: m2 :: '-' :: d1 :: d2 :: 'T' ::
      h1 :: h2 :: ':' :: n1 :: n2 :: ':' :: s1 :: s2 :: '.' :: rest =>
      match rest.getLast? with
      | some 'Z' =>
          match parse4 y1 y2 y3 y4, parse2 m1 m2, parse2 d1 d2,
                parse2 h1 h2, parse2 n1 n2, parse2 s1 s2,
                parseMicro? rest.dropLast with
          | some y, some mo, some d, some h, some mi, some sc, some us =>
              mkDateTime? y mo d h mi sc us
          | _, _, _, _, _, _, _ => none
      | _ => none
  | _ => none

/-- `strptime(s, "%Y-%m-%d")` (format 5). -/
def strptimeDate (s : String) : Option DateTime :=
  match s.data with
  | [y1, y2, y3, y4, '-', m1, m2, '-', d1, d2] =>
      match parse4 y1 y2 y3 y4, parse2 m1 m2, parse2 d1 d2 with
      | some y, some mo, some d => mkDateTime? y mo d 0 0 0 0
      | _, _, _ => none
  | _ => none

/-- The ordered format list of `_parse_timestamp`: first successful
parse wins. -/
def tryFormats (s : String) : Option DateTime :=
  (strptimeFracZ s).orElse (fun _ =>
    (strptimeZ s).orElse (fun _ =>
      (strptimeSep 'T' s).orElse (fun _ =>
        (strptimeSep ' ' s).orElse (fun _ =>
          strptimeDate s))))

/-- Civil date-time from a Unix epoch value (UTC; the source's
`datetime.fromtimestamp` uses the local timezone, an environment
detail outside the embedding).  Closed-form era computation. -/
def epochToDateTime (n : Int) : DateTime :=
  let days : Int := Int.fdiv n 86400
  let secs : Nat := (n - 86400 * days).toNat
  let z : Int := days + 719468
  let era : Int := Int.fdiv z 146097
  let doe : Nat := (z - era * 146097).toNat
  let yoe : Nat := (doe - doe / 1460 + doe / 36524 - doe / 146096) / 365
  let doy : Nat := doe - (365 * yoe + yoe / 4 - yoe / 100)
  let mp : Nat := (5 * doy + 2) / 153
  let d : Nat := doy - (153 * mp + 2) / 5 + 1
  let m : Nat := if mp < 10 then mp + 3 else mp - 9
  let y : Int := yoe + era * 400 + (if m ≤ 2 then 1 else 0)
  { year := y.toNat, month := m, day := d,
    hour := secs / 3600, minute := secs % 3600 / 60, second := secs % 60,
    micro := 0 }

/-- `WorkOrderDiscovery._parse_timestamp`: falsy values (including a
missing key) and unrecognized shapes yield the current time `now`;
native numbers are Unix epochs (`True` counts as the integer `1`);
strings go through the format list, and on total failure the optional
`dateutil` fallback is absent (the source guards it with
`except ImportError`), so the result is `now`. -/
def parseTimestamp (v : Option JsonVal) (now : DateTime) : DateTime :=
  match v with
  | none => now
  | some x =>
      if pyFalsy x then now
      else match x with
        | .bool _ => epochToDateTime 1
        | .num n => epochToDateTime n
        | .str s =>
            match tryFormats s with
            | some t => t
            | none => now
        | _ => now

/-- The id extraction of `_create_work_order_from_data`:
`str(data.get("id", data.get("_id", data.get("work_order_id", ""))))`,
falling back to `hashlib.md5(str(data).encode()).hexdigest()[:12]`
when the result is empty. -/
def extractedId (data : RawData) : String :=
  let woId := pyStr (rawChain3 data "id" "_id" "work_order_id" (.str ""))
  if woId = "" then String.mk ((md5Hex (pyStr (.obj data))).data.take 12)
  else woId

/-- The assignee extraction: the key chain, then for a truthy dict
value the `name`/`email`/`str(...)` chain.  Python would store any
non-dict value object unchanged; the embedding stores its `str()`
image (identical for the string-valued inputs every claim uses). -/
def extractedAssigned (data : RawData) : Option String :=
  match rawChainO3 data "assigned_to" "assignee" "owner" with
  | none => none
  | some .null => none
  | some (.obj o) =>
      if o.isEmpty then some (pyStr (.obj o))
      else some (pyStr ((dget? o "name").getD
        ((dget? o "email").getD (.str (pyStr (.obj o))))))
  | some v => some (pyStr v)

/-- `s.split(",")` (produces `[""]` for the empty string, like Python). -/
def splitCommaAux : List Char → List Char → List String
  | [], cur => [String.mk cur.reverse]
  | ',' :: cs, cur => String.mk cur.reverse :: splitCommaAux cs []
  | c :: cs, cur => splitCommaAux cs (c :: cur)

/-- Python whitespace for `str.strip()` (ASCII fragment). -/
def isPySpace (c : Char) : Bool :=
  c = ' ' || c = '\t' || c = '\n' || c = '\r' || c = '\x0b' || c = '\x0c'

/-- `s.strip()`. -/
def pyStrip (s : String) : String :=
  String.mk (((s.data.dropWhile isPySpace).reverse.dropWhile isPySpace).reverse)

/-- The tag extraction: a comma-separated string is split and
stripped, a list is kept (elements `str()`-imaged, see
`extractedAssigned`), anything else yields no tags. -/
def extractedTags (data : RawData) : List String :=
  match rawChain3 data "tags" "labels" "categories" (.arr []) with
  | .str s => (splitCommaAux s.data []).map pyStrip
  | .arr xs => xs.map pyStr
  | _ => []

/-- Keys consumed by the canonical mapping (the literal list in the
metadata comprehension; note `_id`, `state`, `urgency`, `name`, ... are
not in it and therefore stay in `metadata`). -/
def consumedKeys : List String :=
  ["id", "title", "description", "status", "priority",
   "created_at", "updated_at", "due_date", "assigned_to", "tags"]

/-- The metadata comprehension plus `metadata["source_url"] = source_url`. -/
def extractedMetadata (data : RawData) (sourceUrl : String) :
    List (String × JsonVal) :=
  dinsert (data.filter (fun kv => !(consumedKeys.contains kv.1)))
    "source_url" (.str sourceUrl)

/-- Body of `_create_work_order_from_data` before the `except` handler.
The only raising steps are the two `.lower()` calls on non-string
status/priority values (`AttributeError`); every other extraction is
total. -/
def createWorkOrderE (data : RawData) (sourceUrl : String) (now : DateTime) :
    Except String WorkOrder :=
  let woId := extractedId data
  let title := pyStr (rawChain3 data "title" "name" "subject" (.str "Untitled Work Order"))
  let description := pyStr (rawChain3 data "description" "details" "summary" (.str ""))
  match coerceStr (rawChain2 data "status" "state" (.str "queued")) with
  | .error e => .error e
  | .ok statusStr =>
  match coerceStr (rawChain2 data "priority" "urgency" (.str "medium")) with
  | .error e => .error e
  | .ok priorityStr =>
      .ok { id := woId, title := title, description := description,
            status := dgetD status_mapping (pyLower statusStr) .QUEUED,
            priority := dgetD priority_mapping (pyLower priorityStr) .MEDIUM,
            created_at := parseTimestamp (rawChainO3 data "created_at" "created" "timestamp") now,
            updated_at := parseTimestamp (rawChainO3 data "updated_at" "updated" "modified") now,
            assigned_to := extractedAssigned data,
            due_date := some (parseTimestamp (rawChainO3 data "due_date" "deadline" "due") now),
            tags := extractedTags data,
            metadata := extractedMetadata data sourceUrl,
            source := "8090_factory" }

/-- `_create_work_order_from_data`: the `try`/`except Exception`
handler logs and returns `None` on any failure. -/
def createWorkOrderFromData (data : RawData) (sourceUrl : String)
    (now : DateTime) : Option WorkOrder :=
  (createWorkOrderE data sourceUrl now).toOption

/-- The record shape `createWorkOrderE` produces on success, given the
coerced status string `s` and priority string `p`. -/
def normalizedRecord (data : RawData) (sourceUrl : String) (now : DateTime)
    (s p : String) : WorkOrder :=
  { id := extractedId data,
    title := pyStr (rawChain3 data "title" "name" "subject" (.str "Untitled Work Order")),
    description := pyStr (rawChain3 data "description" "details" "summary" (.str "")),
    status := dgetD status_mapping (pyLower s) .QUEUED,
    priority := dgetD priority_mapping (pyLower p) .MEDIUM,
    created_at := parseTimestamp (rawChainO3 data "created_at" "created" "timestamp") now,
    updated_at := parseTimestamp (rawChainO3 data "updated_at" "updated" "modified") now,
    assigned_to := extractedAssigned data,
    due_date := some (parseTimestamp (rawChainO3 data "due_date" "deadline" "due") now),
    tags := extractedTags data,
    metadata := extractedMetadata data sourceUrl,
    source := "8090_factory" }

/-- One item of a pattern list: a non-dict item makes `data.get`
raise `AttributeError` inside the record's `try`, so it is dropped. -/
def createFromItem (item : JsonVal) (sourceUrl : String) (now : DateTime) :
    Option WorkOrder :=
  match item with
  | .obj o => createWorkOrderFromData o sourceUrl now
  | _ => none

/-- The `work_order_patterns` literal. -/
def workOrderPatterns : List String :=
  ["work_orders", "workOrders", "tasks", "jobs", "orders",
   "queue", "pending", "assigned", "work_items"]

/-- `_extract_work_orders_from_dict`: for every pattern key holding a
list, normalize each item, keeping the successes (`if work_order:`),
accumulating across patterns. -/
def extractWorkOrdersFromDict (data : RawData) (sourceUrl : String)
    (now : DateTime) : List WorkOrder :=
  workOrderPatterns.foldl (fun acc pat =>
    match dget? data pat with
    | some (.arr items) =>
        acc ++ items.filterMap (fun it => createFromItem it sourceUrl now)
    | _ => acc) []

/-! ## Derived specification notions -/

/-- Successes of `from_dict` before the first failing record of a
document (those are the records an import call adds). -/
def okInits : List WoDict → List WorkOrder
  | [] => []
  | d :: rest =>
      match WorkOrder.fromDict d with
      | .ok w => w :: okInits rest
      | .error _ => []

/-- The first `from_dict` error of a document, if any. -/
def firstErr : List WoDict → Option String
  | [] => none
  | d :: rest =>
      match WorkOrder.fromDict d with
      | .ok _ => firstErr rest
      | .error e => some e

/-- `Except` success test. -/
def isOkE {ε α : Type} : Except ε α → Bool
  | .ok _ => true
  | .error _ => false

/-- Validity of an optional timestamp. -/
def dueValid : Option DateTime → Prop
  | none => True
  | some t => t.Valid

instance (o : Option DateTime) : Decidable (dueValid o) :=
  match o with
  | none => isTrue trivial
  | some t => inferInstanceAs (Decidable t.Valid)

/-- Work orders whose timestamps are representable `datetime` values
(every value the Python runtime can construct satisfies this). -/
def WellFormedWO (w : WorkOrder) : Prop :=
  w.created_at.Valid ∧ w.updated_at.Valid ∧ dueValid w.due_date

instance (w : WorkOrder) : Decidable (WellFormedWO w) :=
  inferInstanceAs (Decidable (_ ∧ _ ∧ _))

/-! ## Concrete fixtures for witnesses and counterexamples -/

/-- Fixed concrete timestamp. -/
def exT : DateTime := ⟨2024, 5, 17, 10, 30, 0, 0⟩

/-- Queued work order with id `a`. -/
def exW1 : WorkOrder :=
  { id := "a", title := "Fix login bug", description := "auth fails",
    status := .QUEUED, priority := .HIGH,
    created_at := exT, updated_at := exT, tags := ["bug", "auth"] }

/-- Replacement record with the same id `a` but a different status. -/
def exW1b : WorkOrder :=
  { id := "a", title := "Redo login", description := "done deal",
    status := .COMPLETED, priority := .LOW,
    created_at := exT, updated_at := exT }

/-- Second work order with id `b`. -/
def exW2 : WorkOrder :=
  { id := "b", title := "Add dashboard", description := "analytics view",
    status := .IN_PROGRESS, priority := .MEDIUM,
    created_at := exT, updated_at := exT, tags := ["feature"] }

/-- Work order whose searchable tokens are `alpha`, `gamma`. -/
def exWX : WorkOrder :=
  { id := "x", title := "alpha gamma", description := "",
    status := .QUEUED, priority := .LOW, created_at := exT, updated_at := exT }

/-- Work order whose searchable tokens are `beta`, `gamma`. -/
def exWY : WorkOrder :=
  { id := "y", title := "beta gamma", description := "",
    status := .QUEUED, priority := .LOW, created_at := exT, updated_at := exT }

/-- Importable record with id `g1`. -/
def exGoodD1 : WoDict :=
  { id := "g1", title := "first", description := "",
    status := "queued", priority := "low",
    created_at := "2024-05-17T10:30:00", updated_at := "2024-05-17T10:30:00",
    assigned_to := none, due_date := none, tags := [], metadata := [],
    source := "8090_factory" }

/-- Record whose status string is not a valid enum value. -/
def exBadD : WoDict :=
  { id := "bad", title := "broken", description := "",
    status := "bogus", priority := "low",
    created_at := "2024-05-17T10:30:00", updated_at := "2024-05-17T10:30:00",
    assigned_to := none, due_date := none, tags := [], metadata := [],
    source := "8090_factory" }

/-- Importable record with id `g2`, placed after the bad record. -/
def exGoodD2 : WoDict :=
  { id := "g2", title := "second", description := "",
    status := "queued", priority := "low",
    created_at := "2024-05-17T10:30:00", updated_at := "2024-05-17T10:30:00",
    assigned_to := none, due_date := none, tags := [], metadata := [],
    source := "8090_factory" }

/-- The raw mapping of the spec's concrete normalization scenario. -/
def exRaw : RawData :=
  [("name", .str "Untitled task"), ("state", .str "active"),
   ("urgency", .str "urgent")]

/-- Raw mapping with an id and no due-date keys. -/
def exRawNoDue : RawData :=
  [("id", .str "k"), ("title", .str "T"),
   ("status", .str "queued"), ("priority", .str "low")]

/-- Raw mapping whose status value is not a string (the `.lower()`
call raises on it). -/
def exBadItem : JsonVal := .obj [("status", .num 5)]

/-- Raw item normalizing successfully, id `r1`. -/
def exGoodItem1 : JsonVal :=
  .obj [("id", .str "r1"), ("title", .str "alpha job")]

/-- Raw item normalizing successfully, id `r2`. -/
def exGoodItem2 : JsonVal :=
  .obj [("id", .str "r2"), ("title", .str "beta job")]

/-! # Lemmas about the dictionary model -/

theorem dget?_dinsert {κ α : Type} [DecidableEq κ] (d : List (κ × α)) (k k' : κ) (v : α) :
    dget? (dinsert d k v) k' = if k' = k then some v else dget? d k' := by
  induction d with
  | nil => by_cases h : k' = k <;> simp [dinsert, dget?, h]
  | cons e rest ih =>
      obtain ⟨k₀, v₀⟩ := e
      by_cases h : k = k₀
      · subst h
        by_cases h' : k' = k <;> simp [dinsert, dget?, h']
      · by_cases h' : k' = k₀
        · subst h'
          have : ¬ k' = k := fun hc => h hc.symm
          simp [dinsert, dget?, h, this]
        · simp [dinsert, dget?, h, h', ih]

theorem length_dinsert {κ α : Type} [DecidableEq κ] (d : List (κ × α)) (k : κ) (v : α) :
    (dinsert d k v).length =
      if (dget? d k).isSome then d.length else d.length + 1 := by
  induction d with
  | nil => simp [dinsert, dget?]
  | cons e rest ih =>
      obtain ⟨k₀, v₀⟩ := e
      by_cases h : k = k₀
      · simp [dinsert, dget?, h]
      · simp only [dinsert, dget?, h, if_false, List.length_cons, ih]
        split <;> simp

theorem dinsert_fresh {κ α : Type} [DecidableEq κ] (d : List (κ × α)) (k : κ) (v : α)
    (h : dget? d k = none) : dinsert d k v = d ++ [(k, v)] := by
  induction d with
  | nil => simp [dinsert]
  | cons e rest ih =>
      obtain ⟨k₀, v₀⟩ := e
      by_cases hk : k = k₀
      · subst hk; simp [dget?] at h
      · simp [dget?, hk] at h
        simp [dinsert, hk, ih h]

theorem dgetD_dappend {κ α : Type} [DecidableEq κ] (d : List (κ × List α)) (k k' : κ) (x : α) :
    dgetD (dappend d k x) k' [] =
      if k' = k then dgetD d k' [] ++ [x] else dgetD d k' [] := by
  induction d with
  | nil => by_cases h : k' = k <;> simp [dappend, dgetD, dget?, h]
  | cons e rest ih =>
      obtain ⟨k₀, v₀⟩ := e
      by_cases h : k = k₀
      · subst h
        by_cases h' : k' = k <;> simp [dappend, dgetD, dget?, h']
      · by_cases h' : k' = k₀
        · subst h'
          have : ¬ k' = k := fun hc => h hc.symm
          simp [dappend, dgetD, dget?, h, this]
        · simpa [dappend, dgetD, dget?, h, h'] using ih

theorem dget?_dappendNew_ne {κ α : Type} [DecidableEq κ] [DecidableEq α]
    (d : List (κ × List α)) (k k' : κ) (x : α) (h : k' ≠ k) :
    dget? (dappendNew d k x) k' = dget? d k' := by
  induction d with
  | nil => simp [dappendNew, dget?, h]
  | cons e rest ih =>
      obtain ⟨k₀, v₀⟩ := e
      by_cases hk : k = k₀
      · subst hk; simp [dappendNew, dget?, h, fun hc => h hc]
      · by_cases h' : k' = k₀ <;> simp [dappendNew, dget?, hk, h', ih]

theorem dget?_dappendNew_self {κ α : Type} [DecidableEq κ] [DecidableEq α]
    (d : List (κ × List α)) (k : κ) (x : α) :
    dget? (dappendNew d k x) k =
      some ((dget? d k).elim [x] (fun l => if x ∈ l then l else l ++ [x])) := by
  induction d with
  | nil => simp [dappendNew, dget?, Option.elim]
  | cons e rest ih =>
      obtain ⟨k₀, v₀⟩ := e
      by_cases hk : k = k₀
      · subst hk; simp [dappendNew, dget?, Option.elim]
      · simp [dappendNew, dget?, hk, ih]

theorem mem_some_iff {α : Type} (V : List α) (i : α) :
    (∃ l, (some V : Option (List α)) = some l ∧ i ∈ l) ↔ i ∈ V := by simp

theorem mem_dappendNew_self {κ α : Type} [DecidableEq κ] [DecidableEq α]
    (d : List (κ × List α)) (k : κ) (x i : α) :
    (∃ l, dget? (dappendNew d k x) k = some l ∧ i ∈ l)
      ↔ (∃ l, dget? d k = some l ∧ i ∈ l) ∨ i = x := by
  rw [dget?_dappendNew_self, mem_some_iff]
  rcases h : dget? d k with _ | v
  · simp [Option.elim]
  · by_cases hx : x ∈ v
    · simp only [Option.elim, hx, if_true, mem_some_iff]
      constructor
      · exact Or.inl
      · rintro (hi | rfl)
        · exact hi
        · exact hx
    · simp only [Option.elim, hx, if_false, mem_some_iff, List.mem_append,
        List.mem_singleton]

theorem ne_nil_dappendNew {κ α : Type} [DecidableEq κ] [DecidableEq α]
    (d : List (κ × List α)) (k : κ) (x : α)
    (hd : ∀ k' l, dget? d k' = some l → l ≠ [])
    (k' : κ) (l : List α) (h : dget? (dappendNew d k x) k' = some l) : l ≠ [] := by
  by_cases hc : k' = k
  · subst hc
    rw [dget?_dappendNew_self] at h
    obtain rfl := Option.some.inj h.symm
    rcases hh : dget? d k' with _ | v
    · simp [hh, Option.elim]
    · simp only [hh, Option.elim]
      split
      · exact hd k' v hh
      · simp
  · rw [dget?_dappendNew_ne d k k' x hc] at h
    exact hd k' l h

/-! # Lemmas about the primary store under `add` sequences -/

theorem addAll_nil (idx : WorkOrderIndex) : addAll idx [] = idx := rfl

theorem addAll_cons (idx : WorkOrderIndex) (w : WorkOrder) (ws : List WorkOrder) :
    addAll idx (w :: ws) = addAll (idx.addWorkOrder w) ws := rfl

theorem dget?_work_orders_addAll (idx : WorkOrderIndex) (ws : List WorkOrder) (i : String) :
    dget? (addAll idx ws).work_orders i =
      ((ws.filter (fun w => w.id == i)).getLast?).elim (dget? idx.work_orders i) some := by
  induction ws generalizing idx with
  | nil => simp [addAll_nil, Option.elim]
  | cons w ws ih =>
      rw [addAll_cons, ih]
      have hadd : dget? (idx.addWorkOrder w).work_orders i =
          if i = w.id then some w else dget? idx.work_orders i := by
        simp [WorkOrderIndex.addWorkOrder, dget?_dinsert]
      rw [hadd, List.filter_cons]
      by_cases hid : w.id = i
      · have hb : (w.id == i) = true := by simpa using hid
        rw [hb]
        simp only [if_true]
        rw [List.getLast?_cons]
        rcases hrest : (ws.filter (fun x => x.id == i)).getLast? with _ | u <;>
          rw [hrest]
        · simp [Option.elim, hid.symm]
        · simp [Option.elim]
      · have hb : (w.id == i) = false := by simpa using hid
        rw [hb]
        simp only [Bool.false_eq_true, if_false]
        rcases hrest : (ws.filter (fun x => x.id == i)).getLast? with _ | u <;>
          rw [hrest]
        · simp only [Option.elim]
          rw [if_neg (fun hc : i = w.id => hid hc.symm)]
        · simp [Option.elim]

theorem getWorkOrder_addAll_init (ws : List WorkOrder) (i : String) :
    (addAll WorkOrderIndex.init ws).getWorkOrder i =
      (ws.filter (fun w => w.id == i)).getLast? := by
  rw [WorkOrderIndex.getWorkOrder, dget?_work_orders_addAll]
  have hinit : dget? WorkOrderIndex.init.work_orders i = none := rfl
  rw [hinit]
  rcases h : (ws.filter (fun w => w.id == i)).getLast? with _ | u <;> rw [h] <;> rfl

theorem getWorkOrder_addAll_init_eq_some (ws : List WorkOrder) (i : String) (w : WorkOrder)
    (h : (addAll WorkOrderIndex.init ws).getWorkOrder i = some w) :
    w.id = i ∧ w ∈ ws := by
  rw [getWorkOrder_addAll_init] at h
  have hm : w ∈ ws.filter (fun x => x.id == i) :=
    List.mem_of_mem_getLast? (by rw [h]; rfl)
  have := List.mem_filter.mp hm
  exact ⟨by simpa using this.2, this.1⟩

theorem isSome_dget?_addAll_of_mem (idx : WorkOrderIndex) (ws : List WorkOrder)
    (w : WorkOrder) (hw : w ∈ ws) :
    (dget? (addAll idx ws).work_orders w.id).isSome := by
  rw [dget?_work_orders_addAll]
  have hne : ws.filter (fun x => x.id == w.id) ≠ [] := by
    intro hc
    have : w ∈ ws.filter (fun x => x.id == w.id) := List.mem_filter.mpr ⟨hw, by simp⟩
    rw [hc] at this
    simp at this
  rcases h : (ws.filter (fun x => x.id == w.id)).getLast? with _ | u
  · exact absurd (List.getLast?_isSome.mpr hne) (by simp [h])
  · rw [h]
    rfl

theorem length_addAll_of_mem (idx : WorkOrderIndex) (ws : List WorkOrder)
    (h : ∀ w ∈ ws, (dget? idx.work_orders w.id).isSome) :
    (addAll idx ws).work_orders.length = idx.work_orders.length := by
  induction ws generalizing idx with
  | nil => rfl
  | cons w ws ih =>
      rw [addAll_cons]
      have h1 : (idx.addWorkOrder w).work_orders.length = idx.work_orders.length := by
        have := length_dinsert idx.work_orders w.id w
        simp [WorkOrderIndex.addWorkOrder, this, h w (by simp)]
      rw [ih (idx.addWorkOrder w) ?_, h1]
      intro u hu
      have := h u (by simp [hu])
      simp [WorkOrderIndex.addWorkOrder, dget?_dinsert]
      by_cases hc : u.id = w.id <;> simp [hc, this]

theorem importLoop_eq (idx : WorkOrderIndex) (ds : List WoDict) :
    importLoop idx ds = (addAll idx (okInits ds), firstErr ds) := by
  induction ds generalizing idx with
  | nil => rfl
  | cons d ds ih =>
      rcases h : WorkOrder.fromDict d with e | w
      · simp only [importLoop, okInits, firstErr, h, addAll_nil]
      · simp only [importLoop, okInits, firstErr, h, addAll_cons]
        exact ih _

/-! # Lemmas about the status buckets -/

theorem addAll_append (idx : WorkOrderIndex) (ws ws' : List WorkOrder) :
    addAll idx (ws ++ ws') = addAll (addAll idx ws) ws' := by
  simp [addAll, List.foldl_append]

theorem dgetD_status_addAll (idx : WorkOrderIndex) (ws : List WorkOrder)
    (s : WorkOrderStatus) :
    dgetD (addAll idx ws).index_by_status s [] =
      dgetD idx.index_by_status s [] ++ (ws.filter (fun w => w.status == s)).map (·.id) := by
  induction ws generalizing idx with
  | nil => simp [addAll_nil]
  | cons w ws ih =>
      rw [addAll_cons, ih, List.filter_cons]
      have hb : dgetD (idx.addWorkOrder w).index_by_status s [] =
          if s = w.status then dgetD idx.index_by_status s [] ++ [w.id]
          else dgetD idx.index_by_status s [] :=
        dgetD_dappend idx.index_by_status w.status s w.id
      by_cases hs : w.status = s
      · have : (w.status == s) = true := by simpa using hs
        rw [this, hb, if_pos hs.symm]
        simp
      · have : (w.status == s) = false := by simpa using hs
        rw [this, hb, if_neg (fun hc => hs hc.symm)]
        simp

theorem dgetD_init_status (s : WorkOrderStatus) :
    dgetD WorkOrderIndex.init.index_by_status s [] = [] := by
  cases s <;> rfl

theorem filter_id_eq_nil (ws : List WorkOrder) (i : String)
    (h : i ∉ ws.map (·.id)) : ws.filter (fun w => w.id == i) = [] := by
  induction ws with
  | nil => rfl
  | cons w ws ih =>
      simp only [List.map_cons, List.mem_cons] at h
      push_neg at h
      rw [List.filter_cons]
      have : (w.id == i) = false := by simpa using fun hc => h.1 hc.symm
      rw [this]
      simp only [Bool.false_eq_true, if_false]
      exact ih h.2

theorem filter_id_nodup (ws : List WorkOrder) (hN : (ws.map (·.id)).Nodup)
    (w : WorkOrder) (hw : w ∈ ws) : ws.filter (fun x => x.id == w.id) = [w] := by
  induction ws with
  | nil => simp at hw
  | cons u ws ih =>
      simp only [List.map_cons, List.nodup_cons] at hN
      rcases List.mem_cons.mp hw with rfl | hw'
      · rw [List.filter_cons]
        have : (w.id == w.id) = true := by simp
        rw [this, if_pos rfl, filter_id_eq_nil ws w.id hN.1]
      · rw [List.filter_cons]
        have : (u.id == w.id) = false := by
          simp only [beq_eq_false_iff_ne, ne_eq]
          intro hc
          exact hN.1 (hc ▸ List.mem_map_of_mem (·.id) hw')
        rw [this]
        simp only [Bool.false_eq_true, if_false]
        exact ih hN.2 hw'

theorem getWorkOrder_of_mem_nodup (ws : List WorkOrder)
    (hN : (ws.map (·.id)).Nodup) (w : WorkOrder) (hw : w ∈ ws) :
    dget? (addAll WorkOrderIndex.init ws).work_orders w.id = some w := by
  have h := getWorkOrder_addAll_init ws w.id
  rw [WorkOrderIndex.getWorkOrder] at h
  rw [h, filter_id_nodup ws hN w hw]
  rfl

theorem filterMap_eq_self {α : Type} (l : List α) (f : α → Option α)
    (h : ∀ x ∈ l, f x = some x) : l.filterMap f = l := by
  induction l with
  | nil => rfl
  | cons x l ih =>
      rw [List.filterMap_cons, h x (by simp)]
      rw [ih (fun y hy => h y (by simp [hy]))]

theorem byStatus_addAll_init_nodup (ws : List WorkOrder)
    (hN : (ws.map (·.id)).Nodup) (s : WorkOrderStatus) :
    (addAll WorkOrderIndex.init ws).getWorkOrdersByStatus s =
      ws.filter (fun w => w.status == s) := by
  rw [WorkOrderIndex.getWorkOrdersByStatus, dgetD_status_addAll, dgetD_init_status,
    List.nil_append, lookupExisting, List.filterMap_map]
  exact filterMap_eq_self _ _ (fun w hw =>
    getWorkOrder_of_mem_nodup ws hN w (List.mem_of_mem_filter hw))

theorem dget?_map_pair_none (ws : List WorkOrder) (i : String)
    (h : i ∉ ws.map (·.id)) :
    dget? (ws.map (fun w => (w.id, w))) i = none := by
  induction ws with
  | nil => rfl
  | cons w ws ih =>
      simp only [List.map_cons, List.mem_cons] at h
      push_neg at h
      simp only [List.map_cons, dget?]
      rw [if_neg (fun hc => h.1 hc), ih h.2]

theorem work_orders_addAll_init_nodup (ws : List WorkOrder)
    (hN : (ws.map (·.id)).Nodup) :
    (addAll WorkOrderIndex.init ws).work_orders = ws.map (fun w => (w.id, w)) := by
  induction ws using List.reverseRecOn with
  | nil => rfl
  | append_singleton ws w ih =>
      rw [List.map_append] at hN
      obtain ⟨h1, _, hdisj⟩ := List.nodup_append.mp hN
      have hwid : w.id ∉ ws.map (·.id) := by
        intro hc
        exact hdisj hc (by simp)
      rw [addAll_append]
      have hone : addAll (addAll WorkOrderIndex.init ws) [w] =
          (addAll WorkOrderIndex.init ws).addWorkOrder w := rfl
      rw [hone]
      have h2 : ((addAll WorkOrderIndex.init ws).addWorkOrder w).work_orders =
          dinsert (addAll WorkOrderIndex.init ws).work_orders w.id w := rfl
      rw [h2, ih h1, dinsert_fresh _ _ _ (dget?_map_pair_none ws w.id hwid),
        List.map_append]
      rfl

theorem status_mem_all (s : WorkOrderStatus) : s ∈ WorkOrderStatus.all := by
  cases s <;> decide

theorem all_status_nodup : WorkOrderStatus.all.Nodup := by decide

theorem filters_cons_not_mem (S : List WorkOrderStatus) (w : WorkOrder)
    (ws : List WorkOrder) (h : w.status ∉ S) :
    S.map (fun s => (w :: ws).filter (fun x => x.status == s)) =
      S.map (fun s => ws.filter (fun x => x.status == s)) := by
  apply List.map_congr_left
  intro s hs
  rw [List.filter_cons]
  have : (w.status == s) = false := by
    simp only [beq_eq_false_iff_ne, ne_eq]
    intro hc
    exact h (hc ▸ hs)
  rw [this]
  simp

theorem flatten_filters_cons (S : List WorkOrderStatus) (hS : S.Nodup)
    (w : WorkOrder) (ws : List WorkOrder) (hmem : w.status ∈ S) :
    ((S.map (fun s => (w :: ws).filter (fun x => x.status == s))).flatten).Perm
      (w :: (S.map (fun s => ws.filter (fun x => x.status == s))).flatten) := by
  induction S with
  | nil => simp at hmem
  | cons s S ih =>
      obtain ⟨hnot, hS'⟩ := List.nodup_cons.mp hS
      by_cases hw : w.status = s
      · have hb : (w.status == s) = true := by simpa using hw
        have hnotS : w.status ∉ S := hw ▸ hnot
        rw [List.map_cons, List.map_cons, List.filter_cons, hb, if_pos rfl,
          filters_cons_not_mem S w ws hnotS]
        simp
      · have hb : (w.status == s) = false := by simpa using hw
        have hmem' : w.status ∈ S := by
          rcases List.mem_cons.mp hmem with hc | hc
          · exact absurd hc hw
          · exact hc
        rw [List.map_cons, List.map_cons, List.filter_cons, hb]
        simp only [Bool.false_eq_true, if_false, List.flatten_cons]
        exact List.Perm.trans (List.Perm.append_left _ (ih hS' hmem')) List.perm_middle

theorem flatten_filter_perm (ws : List WorkOrder) :
    ((WorkOrderStatus.all.map (fun s => ws.filter (fun w => w.status == s))).flatten).Perm
      ws := by
  induction ws with
  | nil => exact List.Perm.refl _
  | cons w ws ih =>
      exact List.Perm.trans
        (flatten_filters_cons WorkOrderStatus.all all_status_nodup w ws
          (status_mem_all w.status))
        (List.Perm.cons w ih)

theorem mem_dvalues_of_dget? {κ α : Type} [DecidableEq κ] (d : List (κ × α))
    (k : κ) (v : α) (h : dget? d k = some v) : v ∈ dvalues d := by
  induction d with
  | nil => simp [dget?] at h
  | cons e rest ih =>
      obtain ⟨k₀, v₀⟩ := e
      by_cases hk : k = k₀
      · simp [dget?, hk] at h
        simp [dvalues, h]
      · simp only [dget?, hk, if_neg hk] at h
        simp [dvalues] at ih ⊢
        exact Or.inr (ih h)

theorem dkeys_cons {κ α : Type} (e : κ × α) (d : List (κ × α)) :
    dkeys (e :: d) = e.1 :: dkeys d := rfl

theorem dinsert_cons {κ α : Type} [DecidableEq κ] (k₀ : κ) (v₀ : α)
    (rest : List (κ × α)) (k : κ) (v : α) :
    dinsert ((k₀, v₀) :: rest) k v =
      if k = k₀ then (k, v) :: rest else (k₀, v₀) :: dinsert rest k v := rfl

theorem mem_dkeys_dinsert {κ α : Type} [DecidableEq κ] (d : List (κ × α))
    (k k' : κ) (v : α) :
    k' ∈ dkeys (dinsert d k v) ↔ k' ∈ dkeys d ∨ k' = k := by
  induction d with
  | nil => simp [dinsert, dkeys]
  | cons e rest ih =>
      obtain ⟨k₀, v₀⟩ := e
      by_cases hk : k = k₀
      · subst hk
        rw [dinsert_cons, if_pos rfl]
        simp only [dkeys_cons, List.mem_cons, ih]
        tauto
      · rw [dinsert_cons, if_neg hk]
        simp only [dkeys_cons, List.mem_cons, ih]
        tauto

theorem dkeys_nodup_dinsert {κ α : Type} [DecidableEq κ] (d : List (κ × α))
    (k : κ) (v : α) (h : (dkeys d).Nodup) : (dkeys (dinsert d k v)).Nodup := by
  induction d with
  | nil => simp [dinsert, dkeys]
  | cons e rest ih =>
      obtain ⟨k₀, v₀⟩ := e
      rw [dkeys_cons, List.nodup_cons] at h
      by_cases hk : k = k₀
      · subst hk
        rw [dinsert_cons, if_pos rfl, dkeys_cons, List.nodup_cons]
        exact h
      · rw [dinsert_cons, if_neg hk, dkeys_cons, List.nodup_cons]
        refine ⟨?_, ih h.2⟩
        rw [mem_dkeys_dinsert]
        rintro (hc | rfl)
        · exact h.1 hc
        · exact hk rfl

theorem dget?_of_mem_nodup_keys {κ α : Type} [DecidableEq κ] (d : List (κ × α))
    (k : κ) (v : α) (hN : (dkeys d).Nodup) (h : (k, v) ∈ d) : dget? d k = some v := by
  induction d with
  | nil => simp at h
  | cons e rest ih =>
      obtain ⟨k₀, v₀⟩ := e
      simp only [dkeys, List.map_cons, List.nodup_cons] at hN
      rcases List.mem_cons.mp h with hc | hc
      · cases hc
        simp [dget?]
      · have hk : k ≠ k₀ := by
          intro hc'
          subst hc'
          exact hN.1 (by simpa [dkeys] using List.mem_map_of_mem (·.1) hc)
        simp only [dget?, hk, if_neg hk]
        exact ih hN.2 hc

theorem dkeys_nodup_addAll_init (ws : List WorkOrder) :
    (dkeys (addAll WorkOrderIndex.init ws).work_orders).Nodup := by
  induction ws using List.reverseRecOn with
  | nil =>
      rw [addAll_nil]
      decide
  | append_singleton ws w ih =>
      rw [addAll_append]
      exact dkeys_nodup_dinsert _ _ _ ih

/-! # Lemmas about the inverted search index -/

theorem mem_dappendNew {κ α : Type} [DecidableEq κ] [DecidableEq α]
    (d : List (κ × List α)) (k tok : κ) (x i : α) :
    (∃ l, dget? (dappendNew d k x) tok = some l ∧ i ∈ l)
      ↔ (∃ l, dget? d tok = some l ∧ i ∈ l) ∨ (i = x ∧ tok = k) := by
  by_cases hk : tok = k
  · subst hk
    rw [mem_dappendNew_self]
    simp
  · rw [dget?_dappendNew_ne d k tok x hk]
    simp [hk]

theorem searchIndex_mem_fold (si : List (String × List String))
    (words : List String) (wid tok i : String) :
    (∃ l, dget? (words.foldl (fun d word => dappendNew d word wid) si) tok = some l ∧ i ∈ l)
      ↔ (∃ l, dget? si tok = some l ∧ i ∈ l) ∨ (i = wid ∧ tok ∈ words) := by
  induction words generalizing si with
  | nil => simp
  | cons word rest ih =>
      rw [List.foldl_cons, ih, mem_dappendNew]
      constructor
      · rintro ((h | ⟨rfl, rfl⟩) | ⟨rfl, hmem⟩)
        · exact Or.inl h
        · exact Or.inr ⟨rfl, by simp⟩
        · exact Or.inr ⟨rfl, by simp [hmem]⟩
      · rintro (h | ⟨rfl, hmem⟩)
        · exact Or.inl (Or.inl h)
        · rcases List.mem_cons.mp hmem with rfl | h'
          · exact Or.inl (Or.inr ⟨rfl, rfl⟩)
          · exact Or.inr ⟨rfl, h'⟩

theorem searchIndex_mem_add (idx : WorkOrderIndex) (w : WorkOrder) (tok i : String) :
    (∃ l, dget? (idx.addWorkOrder w).search_index tok = some l ∧ i ∈ l)
      ↔ (∃ l, dget? idx.search_index tok = some l ∧ i ∈ l)
        ∨ (i = w.id ∧ tok ∈ searchableWords w) := by
  have h : (idx.addWorkOrder w).search_index =
      (searchableWords w).foldl (fun d word => dappendNew d word w.id) idx.search_index := rfl
  rw [h, searchIndex_mem_fold]

theorem searchIndex_mem_addAll (idx : WorkOrderIndex) (ws : List WorkOrder)
    (tok i : String) :
    (∃ l, dget? (addAll idx ws).search_index tok = some l ∧ i ∈ l)
      ↔ (∃ l, dget? idx.search_index tok = some l ∧ i ∈ l)
        ∨ ∃ w, w ∈ ws ∧ w.id = i ∧ tok ∈ searchableWords w := by
  induction ws generalizing idx with
  | nil => simp [addAll_nil]
  | cons w ws ih =>
      rw [addAll_cons, ih, searchIndex_mem_add]
      constructor
      · rintro ((h | ⟨rfl, hw⟩) | ⟨u, hu, rfl, hw⟩)
        · exact Or.inl h
        · exact Or.inr ⟨w, by simp, rfl, hw⟩
        · exact Or.inr ⟨u, by simp [hu], rfl, hw⟩
      · rintro (h | ⟨u, hu, rfl, hw⟩)
        · exact Or.inl (Or.inl h)
        · rcases List.mem_cons.mp hu with rfl | hu'
          · exact Or.inl (Or.inr ⟨rfl, hw⟩)
          · exact Or.inr ⟨u, hu', rfl, hw⟩

theorem searchIndex_mem_init (ws : List WorkOrder) (tok i : String) :
    (∃ l, dget? (addAll WorkOrderIndex.init ws).search_index tok = some l ∧ i ∈ l)
      ↔ ∃ w, w ∈ ws ∧ w.id = i ∧ tok ∈ searchableWords w := by
  rw [searchIndex_mem_addAll]
  have : dget? WorkOrderIndex.init.search_index tok = none := rfl
  simp [this]

theorem searchIndex_ne_fold (si : List (String × List String))
    (words : List String) (wid : String)
    (h : ∀ tok l, dget? si tok = some l → l ≠ []) :
    ∀ tok l, dget? (words.foldl (fun d word => dappendNew d word wid) si) tok = some l →
      l ≠ [] := by
  induction words generalizing si with
  | nil => exact h
  | cons word rest ih =>
      rw [List.foldl_cons]
      exact ih (dappendNew si word wid) (ne_nil_dappendNew si word wid h)

theorem searchIndex_ne_addAll (idx : WorkOrderIndex) (ws : List WorkOrder)
    (h : ∀ tok l, dget? idx.search_index tok = some l → l ≠ []) :
    ∀ tok l, dget? (addAll idx ws).search_index tok = some l → l ≠ [] := by
  induction ws generalizing idx with
  | nil => exact h
  | cons w ws ih =>
      rw [addAll_cons]
      exact ih (idx.addWorkOrder w) (searchIndex_ne_fold idx.search_index _ w.id h)

theorem searchIndex_ne_init (ws : List WorkOrder) :
    ∀ tok l, dget? (addAll WorkOrderIndex.init ws).search_index tok = some l →
      l ≠ [] := by
  apply searchIndex_ne_addAll
  intro tok l h
  exact absurd h (by simp [WorkOrderIndex.init, dget?])

/-! # Lemmas about the normalizer -/

theorem createWorkOrderE_ok (d : RawData) (url : String) (now : DateTime)
    (s p : String)
    (hs : rawChain2 d "status" "state" (.str "queued") = .str s)
    (hp : rawChain2 d "priority" "urgency" (.str "medium") = .str p) :
    createWorkOrderE d url now = .ok (normalizedRecord d url now s p) := by
  simp [createWorkOrderE, hs, hp, coerceStr, normalizedRecord]

theorem asStr?_eq_some {v : JsonVal} {s : String} (h : v.asStr? = some s) :
    v = .str s := by
  cases v <;> simp [JsonVal.asStr?] at h
  rw [h]

theorem createWorkOrderFromData_ok (d : RawData) (url : String) (now : DateTime)
    (s p : String)
    (hs : (rawChain2 d "status" "state" (.str "queued")).asStr? = some s)
    (hp : (rawChain2 d "priority" "urgency" (.str "medium")).asStr? = some p) :
    createWorkOrderFromData d url now = some (normalizedRecord d url now s p) := by
  rw [createWorkOrderFromData,
    createWorkOrderE_ok d url now s p (asStr?_eq_some hs) (asStr?_eq_some hp)]
  rfl

theorem createWorkOrderFromData_none_status (d : RawData) (url : String)
    (now : DateTime)
    (hs : (rawChain2 d "status" "state" (.str "queued")).asStr? = none) :
    createWorkOrderFromData d url now = none := by
  rcases hval : rawChain2 d "status" "state" (.str "queued") with _ | b | n | s | xs | o <;>
    rw [hval] at hs <;>
    simp [JsonVal.asStr?] at hs <;>
    simp [createWorkOrderFromData, createWorkOrderE, hval, coerceStr, Except.toOption]

theorem createWorkOrderFromData_none_priority (d : RawData) (url : String)
    (now : DateTime) (s : String)
    (hs : rawChain2 d "status" "state" (.str "queued") = .str s)
    (hp : (rawChain2 d "priority" "urgency" (.str "medium")).asStr? = none) :
    createWorkOrderFromData d url now = none := by
  rcases hval : rawChain2 d "priority" "urgency" (.str "medium") with _ | b | n | p | xs | o <;>
    rw [hval] at hp <;>
    simp [JsonVal.asStr?] at hp <;>
    simp [createWorkOrderFromData, createWorkOrderE, hs, hval, coerceStr, Except.toOption]

theorem create_some_fields (d : RawData) (url : String) (now : DateTime)
    (w : WorkOrder) (h : createWorkOrderFromData d url now = some w) :
    ∃ s p : String,
      (rawChain2 d "status" "state" (.str "queued")).asStr? = some s
      ∧ (rawChain2 d "priority" "urgency" (.str "medium")).asStr? = some p
      ∧ w = normalizedRecord d url now s p := by
  rcases hs : (rawChain2 d "status" "state" (.str "queued")).asStr? with _ | s
  · rw [createWorkOrderFromData_none_status d url now hs] at h
    exact absurd h (by simp)
  · rcases hp : (rawChain2 d "priority" "urgency" (.str "medium")).asStr? with _ | p
    · rw [createWorkOrderFromData_none_priority d url now s (asStr?_eq_some hs) hp] at h
      exact absurd h (by simp)
    · rw [createWorkOrderFromData_ok d url now s p hs hp] at h
      exact ⟨s, p, rfl, rfl, (Option.some.inj h).symm⟩

theorem md5Bytes_length (msg : List Nat) : (md5Bytes msg).length = 16 := by
  simp only [md5Bytes]
  simp [wordLE]

theorem length_flatten_byteHex (l : List Nat) :
    ((l.map byteHex).flatten).length = 2 * l.length := by
  induction l with
  | nil => rfl
  | cons b rest ih =>
      simp only [List.map_cons, List.flatten_cons, List.length_append, ih, byteHex]
      simp
      omega

theorem md5Hex_data_length (s : String) : (md5Hex s).data.length = 32 := by
  show ((md5Bytes (utf8Bytes s)).map byteHex).flatten.length = 32
  rw [length_flatten_byteHex, md5Bytes_length]

theorem extractedId_hash (d : RawData)
    (h1 : dget? d "id" = none) (h2 : dget? d "_id" = none)
    (h3 : dget? d "work_order_id" = none) :
    extractedId d = String.mk ((md5Hex (pyStr (.obj d))).data.take 12) := by
  simp [extractedId, rawChain3, rawChainO3, h1, h2, h3, pyStr, Option.orElse]

theorem hashId_ne_empty (d : RawData) :
    String.mk ((md5Hex (pyStr (.obj d))).data.take 12) ≠ "" := by
  intro hc
  have hdata : (md5Hex (pyStr (.obj d))).data.take 12 = [] := congrArg String.data hc
  have hlen : ((md5Hex (pyStr (.obj d))).data.take 12).length = 12 := by
    rw [List.length_take, md5Hex_data_length]
    decide
  rw [hdata] at hlen
  simp at hlen

/-! # Lemmas about timestamp serialization round-trips -/

theorem charDigit?_digitChar (d : Nat) (h : d < 10) :
    charDigit? (digitChar d) = some d := by
  interval_cases d <;> rfl

theorem charDigit?_digitChar_mod (n : Nat) :
    charDigit? (digitChar (n % 10)) = some (n % 10) :=
  charDigit?_digitChar _ (Nat.mod_lt _ (by norm_num))

theorem parse2_pad (n : Nat) (h : n < 100) :
    parse2 (digitChar (n / 10 % 10)) (digitChar (n % 10)) = some n := by
  simp only [parse2, charDigit?_digitChar_mod]
  congr 1
  omega

theorem parse4_pad (n : Nat) (h : n < 10000) :
    parse4 (digitChar (n / 1000 % 10)) (digitChar (n / 100 % 10))
      (digitChar (n / 10 % 10)) (digitChar (n % 10)) = some n := by
  simp only [parse4, charDigit?_digitChar_mod]
  congr 1
  omega

theorem parseFrac_pad (n : Nat) (h : n < 1000000) :
    parseFracTail ('.' :: [digitChar (n / 100000 % 10), digitChar (n / 10000 % 10),
      digitChar (n / 1000 % 10), digitChar (n / 100 % 10),
      digitChar (n / 10 % 10), digitChar (n % 10)]) = some n := by
  simp only [parseFracTail, parse4, parse2, charDigit?_digitChar_mod]
  congr 1
  omega

theorem isoformat_data (y mo d hh mi s us : Nat) :
    (DateTime.isoformat ⟨y, mo, d, hh, mi, s, us⟩).data =
      [digitChar (y / 1000 % 10), digitChar (y / 100 % 10),
       digitChar (y / 10 % 10), digitChar (y % 10), '-',
       digitChar (mo / 10 % 10), digitChar (mo % 10), '-',
       digitChar (d / 10 % 10), digitChar (d % 10), 'T',
       digitChar (hh / 10 % 10), digitChar (hh % 10), ':',
       digitChar (mi / 10 % 10), digitChar (mi % 10), ':',
       digitChar (s / 10 % 10), digitChar (s % 10)]
      ++ (if us = 0 then [] else
       '.' :: [digitChar (us / 100000 % 10), digitChar (us / 10000 % 10),
       digitChar (us / 1000 % 10), digitChar (us / 100 % 10),
       digitChar (us / 10 % 10), digitChar (us % 10)]) := by
  by_cases h0 : us = 0 <;>
    simp [DateTime.isoformat, h0, pad4, pad2, pad6, String.data_append]

theorem isoformat_ne_empty (t : DateTime) : t.isoformat ≠ "" := by
  obtain ⟨y, mo, d, hh, mi, s, us⟩ := t
  intro hc
  have hdata := congrArg String.data hc
  rw [isoformat_data] at hdata
  simp at hdata

theorem daysInMonth_le (y m : Nat) : daysInMonth y m ≤ 31 := by
  unfold daysInMonth
  split
  · split <;> norm_num
  all_goals norm_num

theorem fromisoformat_isoformat (t : DateTime) (h : t.Valid) :
    fromisoformat t.isoformat = some t := by
  obtain ⟨y, mo, d, hh, mi, s, us⟩ := t
  simp only [DateTime.Valid] at h
  obtain ⟨hy1, hy2, hm1, hm2, hd1, hd2, hhh, hmi, hs, hus⟩ := h
  have hval : (DateTime.mk y mo d hh mi s us).Valid :=
    ⟨hy1, hy2, hm1, hm2, hd1, hd2, hhh, hmi, hs, hus⟩
  simp only [fromisoformat]
  rw [isoformat_data]
  by_cases h0 : us = 0
  · subst h0
    rw [if_pos rfl, List.append_nil]
    simp only [parse4_pad y (by omega), parse2_pad mo (by omega),
      parse2_pad d (by have := daysInMonth_le y mo; omega), parse2_pad hh (by omega), parse2_pad mi (by omega),
      parse2_pad s (by omega), parseFracTail, mkDateTime?]
    rw [if_pos hval]
  · rw [if_neg h0]
    simp only [List.cons_append, List.nil_append]
    simp only [parse4_pad y (by omega), parse2_pad mo (by omega),
      parse2_pad d (by have := daysInMonth_le y mo; omega), parse2_pad hh (by omega), parse2_pad mi (by omega),
      parse2_pad s (by omega), parseFrac_pad us (by omega), mkDateTime?]
    rw [if_pos hval]

/-! # Lemmas about `from_dict` after `to_dict` -/

theorem ofValue?_value_status (st : WorkOrderStatus) :
    WorkOrderStatus.ofValue? st.value = some st := by
  cases st <;> rfl

theorem ofValue?_value_priority (p : WorkOrderPriority) :
    WorkOrderPriority.ofValue? p.value = some p := by
  cases p <;> rfl

theorem fromDict_toDict (w : WorkOrder) (h : WellFormedWO w) :
    WorkOrder.fromDict w.toDict = .ok w := by
  obtain ⟨h1, h2, h3⟩ := h
  obtain ⟨id, title, desc, st, pr, ca, ua, asg, due, tags, md, src⟩ := w
  simp only [WorkOrder.toDict, WorkOrder.fromDict, ofValue?_value_status,
    ofValue?_value_priority, fromisoformat_isoformat _ h1, fromisoformat_isoformat _ h2]
  rcases due with _ | t
  · rfl
  · have ht : t.Valid := h3
    simp only [Option.map_some']
    rw [if_neg (isoformat_ne_empty t), fromisoformat_isoformat t ht]

theorem importLoop_map_toDict (idx : WorkOrderIndex) (ws : List WorkOrder)
    (h : ∀ w ∈ ws, WellFormedWO w) :
    importLoop idx (ws.map WorkOrder.toDict) = (addAll idx ws, none) := by
  induction ws generalizing idx with
  | nil => rfl
  | cons w ws ih =>
      rw [List.map_cons]
      show (match WorkOrder.fromDict w.toDict with
        | .error e => (idx, some e)
        | .ok u => importLoop (idx.addWorkOrder u) (ws.map WorkOrder.toDict)) = _
      rw [fromDict_toDict w (h w (by simp))]
      show importLoop (idx.addWorkOrder w) (ws.map WorkOrder.toDict) =
        (addAll idx (w :: ws), none)
      rw [addAll_cons]
      exact ih (idx.addWorkOrder w) (fun u hu => h u (by simp [hu]))

theorem dvalues_map_pair (ws : List WorkOrder) :
    dvalues (ws.map (fun w => (w.id, w))) = ws := by
  simp [dvalues, List.map_map, Function.comp_def, List.map_id']

/-! # Claim theorems -/

/-- C1 (corrected).  For every sequence of `add` calls starting from a
fresh index, `get(id)` returns the last-added WorkOrder with that id —
the primary store does replace on duplicate id.  But `add` only
*appends* the id to the status and priority buckets of the new record:
no removal of the prior record's memberships ever happens, so
re-adding an existing id leaves stale or duplicated memberships in the
secondary indexes (see the counterexample). -/
theorem claim_C1 :
    (∀ (ws : List WorkOrder) (i : String),
        (addAll WorkOrderIndex.init ws).getWorkOrder i =
          (ws.filter (fun w => w.id == i)).getLast?)
    ∧ (∀ (idx : WorkOrderIndex) (w : WorkOrder) (s : WorkOrderStatus),
        dgetD (idx.addWorkOrder w).index_by_status s [] =
          if s = w.status then dgetD idx.index_by_status s [] ++ [w.id]
          else dgetD idx.index_by_status s [])
    ∧ (∀ (idx : WorkOrderIndex) (w : WorkOrder) (p : WorkOrderPriority),
        dgetD (idx.addWorkOrder w).index_by_priority p [] =
          if p = w.priority then dgetD idx.index_by_priority p [] ++ [w.id]
          else dgetD idx.index_by_priority p []) := by
  refine ⟨getWorkOrder_addAll_init, ?_, ?_⟩
  · intro idx w s
    exact dgetD_dappend idx.index_by_status w.status s w.id
  · intro idx w p
    exact dgetD_dappend idx.index_by_priority w.priority p w.id

/-- C1, counterexample to the claim as stated: after adding a QUEUED
record with id `a` and then a COMPLETED record with the same id, the
QUEUED status bucket still lists id `a` — `byStatus(QUEUED)` returns
the (completed) latest record, a stale membership the claim rules
out. -/
theorem claim_C1_counterexample :
    ((addAll WorkOrderIndex.init [exW1, exW1b]).getWorkOrdersByStatus .QUEUED).map
        (fun w => (w.id, w.status.value)) = [("a", "completed")] := by decide

/-- C2 (corrected).  An empty query returns the empty result, and so
does a query in which *every* token is absent from the inverted index.
For an index built from adds with distinct ids and a two-token query
with both tokens present in the index, `search` returns exactly the
records whose searchable tokens contain both tokens (AND semantics).
But a query that merely *contains* one absent token does not return
empty: absent tokens are skipped entirely, and an empty running
intersection is re-seeded by the next present token (see the
counterexample for both failures). -/
theorem claim_C2 :
    (∀ idx : WorkOrderIndex, idx.searchWorkOrders "" = [])
    ∧ (∀ (idx : WorkOrderIndex) (q : String),
        (∀ t ∈ pyFindWords (pyLower q), dget? idx.search_index t = none) →
        idx.searchWorkOrders q = [])
    ∧ (∀ (ws : List WorkOrder) (q t1 t2 : String),
        (ws.map (·.id)).Nodup →
        pyFindWords (pyLower q) = [t1, t2] →
        (dget? (addAll WorkOrderIndex.init ws).search_index t1).isSome →
        (dget? (addAll WorkOrderIndex.init ws).search_index t2).isSome →
        ∀ w ∈ ws,
          (w ∈ (addAll WorkOrderIndex.init ws).searchWorkOrders q
            ↔ t1 ∈ searchableWords w ∧ t2 ∈ searchableWords w)) := by
  refine ⟨fun idx => rfl, ?_, ?_⟩
  · intro idx q h
    have hrfl : idx.searchWorkOrders q = lookupExisting idx
        ((pyFindWords (pyLower q)).foldl (fun acc word =>
          match dget? idx.search_index word with
          | none => acc
          | some l => if acc.isEmpty then l else acc.filter (fun i => l.contains i)) []) := rfl
    have hfold : ∀ (toks : List String) (acc : List String),
        (∀ t ∈ toks, dget? idx.search_index t = none) →
        toks.foldl (fun acc word =>
          match dget? idx.search_index word with
          | none => acc
          | some l => if acc.isEmpty then l else acc.filter (fun i => l.contains i)) acc
          = acc := by
      intro toks
      induction toks with
      | nil => intro acc _; rfl
      | cons t rest ih =>
          intro acc hnone
          rw [List.foldl_cons, hnone t (by simp)]
          exact ih acc (fun u hu => hnone u (by simp [hu]))
    rw [hrfl, hfold _ _ h]
    rfl
  · intro ws q t1 t2 hN hq h1 h2 w hw
    obtain ⟨l1, hl1⟩ := Option.isSome_iff_exists.mp h1
    obtain ⟨l2, hl2⟩ := Option.isSome_iff_exists.mp h2
    have hl1ne : l1 ≠ [] := searchIndex_ne_init ws t1 l1 hl1
    have hl1e : l1.isEmpty = false := by
      cases l1
      · exact absurd rfl hl1ne
      · rfl
    have hfold : (addAll WorkOrderIndex.init ws).searchWorkOrders q =
        lookupExisting (addAll WorkOrderIndex.init ws)
          (l1.filter (fun i => l2.contains i)) := by
      have hrfl : (addAll WorkOrderIndex.init ws).searchWorkOrders q =
          lookupExisting (addAll WorkOrderIndex.init ws)
            ((pyFindWords (pyLower q)).foldl (fun acc word =>
              match dget? (addAll WorkOrderIndex.init ws).search_index word with
              | none => acc
              | some l => if acc.isEmpty then l else acc.filter (fun i => l.contains i)) []) := rfl
      rw [hrfl, hq]
      simp only [List.foldl_cons, List.foldl_nil, hl1, hl2, List.isEmpty_nil, if_true,
        hl1e, Bool.false_eq_true, if_false]
    rw [hfold, lookupExisting, List.mem_filterMap]
    constructor
    · rintro ⟨i, hif, hgi⟩
      obtain ⟨hi1, hi2b⟩ := List.mem_filter.mp hif
      have hi2 : i ∈ l2 := by simpa [List.elem_iff] using hi2b
      obtain ⟨hid, hmemws⟩ := getWorkOrder_addAll_init_eq_some ws i w hgi
      subst hid
      have hsame : ∀ tok : String, ∀ l : List String,
          dget? (addAll WorkOrderIndex.init ws).search_index tok = some l →
          w.id ∈ l → tok ∈ searchableWords w := by
        intro tok l hl hmem
        obtain ⟨w', hw', hww', htok⟩ := (searchIndex_mem_init ws tok w.id).mp ⟨l, hl, hmem⟩
        have : w' ∈ ws.filter (fun x => x.id == w.id) :=
          List.mem_filter.mpr ⟨hw', by simp [hww']⟩
        rw [filter_id_nodup ws hN w hmemws] at this
        have hww : w' = w := by simpa using this
        exact hww ▸ htok
      exact ⟨hsame t1 l1 hl1 hi1, hsame t2 l2 hl2 hi2⟩
    · rintro ⟨ht1, ht2⟩
      refine ⟨w.id, ?_, getWorkOrder_of_mem_nodup ws hN w hw⟩
      apply List.mem_filter.mpr
      constructor
      · obtain ⟨l, hl, hmem⟩ := (searchIndex_mem_init ws t1 w.id).mpr ⟨w, hw, rfl, ht1⟩
        rw [hl1] at hl
        obtain rfl := Option.some.inj hl
        exact hmem
      · obtain ⟨l, hl, hmem⟩ := (searchIndex_mem_init ws t2 w.id).mpr ⟨w, hw, rfl, ht2⟩
        rw [hl2] at hl
        obtain rfl := Option.some.inj hl
        simpa [List.elem_iff] using hmem

/-- C2, witness: in the concrete two-record index, the two-token query
`bug auth` (both tokens present) matches the record containing both
tokens, and all-absent and empty queries return empty. -/
theorem claim_C2_witness :
    (WorkOrderIndex.init.searchWorkOrders "" = [])
    ∧ (∀ t ∈ pyFindWords (pyLower "zzz qqq"),
        dget? (addAll WorkOrderIndex.init [exW1, exW2]).search_index t = none)
    ∧ ((addAll WorkOrderIndex.init [exW1, exW2]).searchWorkOrders "zzz qqq" = [])
    ∧ (([exW1, exW2].map (·.id)).Nodup
        ∧ pyFindWords (pyLower "bug auth") = ["bug", "auth"]
        ∧ (dget? (addAll WorkOrderIndex.init [exW1, exW2]).search_index "bug").isSome = true
        ∧ (dget? (addAll WorkOrderIndex.init [exW1, exW2]).search_index "auth").isSome = true)
    ∧ (exW1 ∈ (addAll WorkOrderIndex.init [exW1, exW2]).searchWorkOrders "bug auth"
        ↔ "bug" ∈ searchableWords exW1 ∧ "auth" ∈ searchableWords exW1) :=
  ⟨claim_C2.1 WorkOrderIndex.init,
   by decide,
   claim_C2.2.1 (addAll WorkOrderIndex.init [exW1, exW2]) "zzz qqq" (by decide),
   ⟨by decide, by decide, by decide, by decide⟩,
   claim_C2.2.2 [exW1, exW2] "bug auth" "bug" "auth" (by decide) (by decide)
     (by decide) (by decide) exW1 (List.mem_cons_self _ _)⟩

/-- C2, counterexample to the claim as stated: the query `zzz bug`
contains the token `zzz`, absent from the inverted index, yet returns
the record matching `bug` instead of the empty result; and the
three-token query `alpha beta gamma` (all tokens present) returns two
records although no record contains all three tokens — the empty
running intersection is re-seeded by the third token. -/
theorem claim_C2_counterexample :
    ((addAll WorkOrderIndex.init [exW1, exW2]).searchWorkOrders "zzz bug").map (·.id) = ["a"]
    ∧ ((addAll WorkOrderIndex.init [exWX, exWY]).searchWorkOrders "alpha beta gamma").map (·.id)
        = ["x", "y"]
    ∧ (∀ w ∈ [exWX, exWY], ¬ ("alpha" ∈ searchableWords w ∧ "beta" ∈ searchableWords w)) :=
  ⟨by decide, by decide, by decide⟩

/-- C3 (corrected).  For an index built by `add` calls with
pairwise-distinct ids, importing its export document into a fresh
index succeeds and reproduces the original index exactly: equal
`statistics()` and every id retrievable with identical field values
(timestamps round-trip `isoformat`/`fromisoformat` at full precision,
hence at second precision).  For states with a replaced id the claim
fails: the original's statistics count stale secondary-index
memberships that the rebuilt index does not have (see the
counterexample). -/
theorem claim_C3 (ws : List WorkOrder) (now : DateTime)
    (hN : (ws.map (·.id)).Nodup) (hWF : ∀ w ∈ ws, WellFormedWO w) :
    (WorkOrderIndex.init.importFromJson
        ((addAll WorkOrderIndex.init ws).exportToJson now)).2 = none
    ∧ (WorkOrderIndex.init.importFromJson
        ((addAll WorkOrderIndex.init ws).exportToJson now)).1.getStatistics
      = (addAll WorkOrderIndex.init ws).getStatistics
    ∧ ∀ i : String,
        (WorkOrderIndex.init.importFromJson
          ((addAll WorkOrderIndex.init ws).exportToJson now)).1.getWorkOrder i
        = (addAll WorkOrderIndex.init ws).getWorkOrder i := by
  have hdoc : ((addAll WorkOrderIndex.init ws).exportToJson now).work_orders =
      ws.map WorkOrder.toDict := by
    show ((dvalues (addAll WorkOrderIndex.init ws).work_orders).map WorkOrder.toDict) = _
    rw [work_orders_addAll_init_nodup ws hN, dvalues_map_pair]
  have himp : WorkOrderIndex.init.importFromJson
      ((addAll WorkOrderIndex.init ws).exportToJson now) =
      (addAll WorkOrderIndex.init ws, none) := by
    rw [WorkOrderIndex.importFromJson, hdoc]
    exact importLoop_map_toDict WorkOrderIndex.init ws hWF
  rw [himp]
  exact ⟨rfl, rfl, fun i => rfl⟩

/-- C3, witness: the round-trip at a concrete two-record index with
distinct ids and representable timestamps. -/
theorem claim_C3_witness :
    (([exW1, exW2].map (·.id)).Nodup ∧ ∀ w ∈ [exW1, exW2], WellFormedWO w)
    ∧ (WorkOrderIndex.init.importFromJson
        ((addAll WorkOrderIndex.init [exW1, exW2]).exportToJson exT)).2 = none
    ∧ (WorkOrderIndex.init.importFromJson
        ((addAll WorkOrderIndex.init [exW1, exW2]).exportToJson exT)).1.getStatistics
      = (addAll WorkOrderIndex.init [exW1, exW2]).getStatistics
    ∧ ∀ i : String,
        (WorkOrderIndex.init.importFromJson
          ((addAll WorkOrderIndex.init [exW1, exW2]).exportToJson exT)).1.getWorkOrder i
        = (addAll WorkOrderIndex.init [exW1, exW2]).getWorkOrder i :=
  ⟨⟨by decide, by decide⟩,
    (claim_C3 [exW1, exW2] exT (by decide) (by decide)).1,
    (claim_C3 [exW1, exW2] exT (by decide) (by decide)).2.1,
    (claim_C3 [exW1, exW2] exT (by decide) (by decide)).2.2⟩

/-- C3, counterexample to the claim as stated: for the index state
reached by adding two records with the same id, the re-imported
index's statistics differ from the original's (the original's QUEUED
bucket still counts the replaced record). -/
theorem claim_C3_counterexample :
    (WorkOrderIndex.init.importFromJson
        ((addAll WorkOrderIndex.init [exW1, exW1b]).exportToJson exT)).1.getStatistics
      ≠ (addAll WorkOrderIndex.init [exW1, exW1b]).getStatistics := by decide

/-- C4 (corrected).  During direct import, a record with an unparsable
status/priority enum value or timestamp does not merely fail
individually: `import_from_json` has no per-record handler, so the
`from_dict` exception aborts the whole call.  Records before the bad
one are already added (the index is mutated in place); the bad record
and everything after it are not imported. -/
theorem claim_C4 (idx : WorkOrderIndex) (pre : List WoDict) (bad : WoDict)
    (post : List WoDict) (e : String)
    (hpre : ∀ d ∈ pre, isOkE (WorkOrder.fromDict d) = true)
    (hbad : WorkOrder.fromDict bad = .error e) :
    importLoop idx (pre ++ bad :: post) = ((importLoop idx pre).1, some e) := by
  induction pre generalizing idx with
  | nil => simp only [List.nil_append, importLoop, hbad]
  | cons d pre ih =>
      have hd := hpre d (by simp)
      obtain ⟨w, hw⟩ : ∃ w, WorkOrder.fromDict d = .ok w := by
        rcases h : WorkOrder.fromDict d with e' | w
        · rw [h] at hd; simp [isOkE] at hd
        · exact ⟨w, rfl⟩
      simp only [List.cons_append, importLoop, hw]
      exact ih (idx.addWorkOrder w) (fun d' hd' => hpre d' (by simp [hd']))

/-- C4, witness: a concrete document with a good record, a record whose
status string is invalid, and another good record. -/
theorem claim_C4_witness :
    (∀ d ∈ [exGoodD1], isOkE (WorkOrder.fromDict d) = true)
    ∧ WorkOrder.fromDict exBadD = .error "ValueError: not a valid WorkOrderStatus: bogus"
    ∧ importLoop WorkOrderIndex.init ([exGoodD1] ++ exBadD :: [exGoodD2]) =
        ((importLoop WorkOrderIndex.init [exGoodD1]).1,
          some "ValueError: not a valid WorkOrderStatus: bogus") :=
  ⟨by decide, rfl,
    claim_C4 WorkOrderIndex.init [exGoodD1] exBadD [exGoodD2]
      "ValueError: not a valid WorkOrderStatus: bogus" (by decide) rfl⟩

/-- C4, counterexample to the claim as stated: importing
`[good1, bad, good2]` raises, keeps `g1`, and never imports `g2` —
the import does not skip the bad record and continue. -/
theorem claim_C4_counterexample :
    ((importLoop WorkOrderIndex.init [exGoodD1, exBadD, exGoodD2]).2).isSome = true
    ∧ ((importLoop WorkOrderIndex.init [exGoodD1, exBadD, exGoodD2]).1.getWorkOrder "g1").isSome = true
    ∧ ((importLoop WorkOrderIndex.init [exGoodD1, exBadD, exGoodD2]).1.getWorkOrder "g2").isNone = true := by
  refine ⟨by decide, by decide, by decide⟩

/-- C5 (corrected).  The union of `byStatus(s)` over all statuses
always equals the full stored set; and for add sequences with
pairwise-distinct ids the buckets are a partition (the concatenation
over all statuses is a permutation of the store, so no record appears
twice).  With a duplicate id the claim's disjointness fails: the
re-added record stays in its old status bucket as well (see the
counterexample). -/
theorem claim_C5 :
    (∀ (ws : List WorkOrder) (w : WorkOrder),
        (∃ s, w ∈ (addAll WorkOrderIndex.init ws).getWorkOrdersByStatus s)
          ↔ w ∈ dvalues (addAll WorkOrderIndex.init ws).work_orders)
    ∧ (∀ ws : List WorkOrder, (ws.map (·.id)).Nodup →
        ((WorkOrderStatus.all.map (fun s =>
            (addAll WorkOrderIndex.init ws).getWorkOrdersByStatus s)).flatten).Perm
          (dvalues (addAll WorkOrderIndex.init ws).work_orders)) := by
  constructor
  · intro ws w
    constructor
    · rintro ⟨s, hs⟩
      rw [WorkOrderIndex.getWorkOrdersByStatus, lookupExisting] at hs
      obtain ⟨i, _, hlook⟩ := List.mem_filterMap.mp hs
      exact mem_dvalues_of_dget? _ i w hlook
    · intro hv
      obtain ⟨e, hmem, h2⟩ : ∃ e ∈ (addAll WorkOrderIndex.init ws).work_orders,
          e.2 = w := by simpa [dvalues] using hv
      obtain ⟨i, w'⟩ := e
      cases h2
      have hget : dget? (addAll WorkOrderIndex.init ws).work_orders i = some w' :=
        dget?_of_mem_nodup_keys _ i w' (dkeys_nodup_addAll_init ws) hmem
      have hid := getWorkOrder_addAll_init_eq_some ws i w' hget
      refine ⟨w'.status, ?_⟩
      rw [WorkOrderIndex.getWorkOrdersByStatus, lookupExisting]
      apply List.mem_filterMap.mpr
      refine ⟨w'.id, ?_, ?_⟩
      · rw [dgetD_status_addAll, dgetD_init_status, List.nil_append]
        refine List.mem_map_of_mem (·.id) (List.mem_filter.mpr ⟨hid.2, ?_⟩)
        show (w'.status == w'.status) = true
        exact beq_self_eq_true _
      · rw [hid.1]
        exact hget
  · intro ws hN
    have hmapeq : WorkOrderStatus.all.map (fun s =>
          (addAll WorkOrderIndex.init ws).getWorkOrdersByStatus s) =
        WorkOrderStatus.all.map (fun s => ws.filter (fun w => w.status == s)) :=
      List.map_congr_left (fun s _ => byStatus_addAll_init_nodup ws hN s)
    rw [hmapeq, work_orders_addAll_init_nodup ws hN]
    have hdv : dvalues (ws.map (fun w => (w.id, w))) = ws := by
      simp [dvalues, List.map_map, Function.comp_def, List.map_id']
    rw [hdv]
    exact flatten_filter_perm ws

/-- C5, witness: the partition property at a concrete two-record
index with distinct ids. -/
theorem claim_C5_witness :
    (([exW1, exW2].map (·.id)).Nodup)
    ∧ ((WorkOrderStatus.all.map (fun s =>
          (addAll WorkOrderIndex.init [exW1, exW2]).getWorkOrdersByStatus s)).flatten).Perm
        (dvalues (addAll WorkOrderIndex.init [exW1, exW2]).work_orders) :=
  ⟨by decide, claim_C5.2 [exW1, exW2] (by decide)⟩

/-- C5, counterexample to the claim as stated: after re-adding id `a`
with a different status, the same stored record is returned by both
the QUEUED and the COMPLETED bucket — the buckets overlap. -/
theorem claim_C5_counterexample :
    ((addAll WorkOrderIndex.init [exW1, exW1b]).getWorkOrdersByStatus .QUEUED).map (·.id) = ["a"]
    ∧ ((addAll WorkOrderIndex.init [exW1, exW1b]).getWorkOrdersByStatus .COMPLETED).map (·.id) = ["a"] :=
  ⟨by decide, by decide⟩

/-- C6 (confirmed).  The normalizer lower-cases the status/priority
strings and maps them through the fixed alias tables, in which
`pending` maps to QUEUED, `active` to IN_PROGRESS, `done` to
COMPLETED and `paused` to ON_HOLD; a status string outside the table
yields QUEUED and a priority string outside its table yields MEDIUM.
The spec's concrete scenario holds: normalizing
`{"name": "Untitled task", "state": "active", "urgency": "urgent"}`
yields title `Untitled task`, status IN_PROGRESS, priority URGENT. -/
theorem claim_C6 :
    (dgetD status_mapping "pending" .QUEUED = .QUEUED)
    ∧ (dgetD status_mapping "active" .QUEUED = .IN_PROGRESS)
    ∧ (dgetD status_mapping "done" .QUEUED = .COMPLETED)
    ∧ (dgetD status_mapping "paused" .QUEUED = .ON_HOLD)
    ∧ (∀ s : String, dget? status_mapping s = none →
        dgetD status_mapping s .QUEUED = .QUEUED)
    ∧ (∀ p : String, dget? priority_mapping p = none →
        dgetD priority_mapping p .MEDIUM = .MEDIUM)
    ∧ (∀ (d : RawData) (url : String) (now : DateTime) (s p : String) (w : WorkOrder),
        (rawChain2 d "status" "state" (.str "queued")).asStr? = some s →
        (rawChain2 d "priority" "urgency" (.str "medium")).asStr? = some p →
        createWorkOrderFromData d url now = some w →
        w.status = dgetD status_mapping (pyLower s) .QUEUED
          ∧ w.priority = dgetD priority_mapping (pyLower p) .MEDIUM)
    ∧ (∀ (url : String) (now : DateTime),
        (createWorkOrderFromData exRaw url now).map
            (fun w => (w.title, w.status, w.priority))
          = some ("Untitled task", .IN_PROGRESS, .URGENT)) := by
  refine ⟨by decide, by decide, by decide, by decide, ?_, ?_, ?_, ?_⟩
  · intro s h
    rw [dgetD, h]
    rfl
  · intro p h
    rw [dgetD, h]
    rfl
  · intro d url now s p w hs hp hw
    rw [createWorkOrderFromData_ok d url now s p hs hp] at hw
    obtain rfl := (Option.some.inj hw).symm
    exact ⟨rfl, rfl⟩
  · intro url now
    rw [createWorkOrderFromData_ok exRaw url now "active" "urgent" (by decide) (by decide)]
    rfl

/-- C6, witness: the alias-table defaults and the normalizer contract
instantiated at the spec's concrete raw mapping. -/
theorem claim_C6_witness :
    (dget? status_mapping "zzz" = none ∧ dgetD status_mapping "zzz" .QUEUED = .QUEUED)
    ∧ ((rawChain2 exRaw "status" "state" (.str "queued")).asStr? = some "active"
        ∧ (rawChain2 exRaw "priority" "urgency" (.str "medium")).asStr? = some "urgent")
    ∧ (∃ w, createWorkOrderFromData exRaw "u" exT = some w
        ∧ w.status = dgetD status_mapping (pyLower "active") .QUEUED
        ∧ w.priority = dgetD priority_mapping (pyLower "urgent") .MEDIUM) := by
  refine ⟨⟨by decide, claim_C6.2.2.2.2.1 "zzz" (by decide)⟩, ⟨by decide, by decide⟩, ?_⟩
  have hmap := claim_C6.2.2.2.2.2.2.2 "u" exT
  have hsome : (createWorkOrderFromData exRaw "u" exT).isSome = true := by
    rcases h : createWorkOrderFromData exRaw "u" exT with _ | w
    · rw [h] at hmap
      exact absurd hmap (by simp)
    · rfl
  obtain ⟨w, hw⟩ := Option.isSome_iff_exists.mp hsome
  exact ⟨w, hw,
    claim_C6.2.2.2.2.2.2.1 exRaw "u" exT "active" "urgent" w (by decide) (by decide) hw⟩

/-- C8 (confirmed).  A raw record whose normalization raises (for
example a non-string status, on which `.lower()` fails) yields no
WorkOrder — it is dropped — and the remaining records of the batch are
still processed: the extraction of a pattern list containing a failing
record returns exactly the normalizations of the records before and
after it. -/
theorem claim_C8 (url : String) (now : DateTime) (pre post : List JsonVal)
    (bad : JsonVal) (hbad : createFromItem bad url now = none) :
    (extractWorkOrdersFromDict [("tasks", .arr (pre ++ bad :: post))] url now =
      pre.filterMap (fun it => createFromItem it url now)
        ++ post.filterMap (fun it => createFromItem it url now))
    ∧ (∀ (d : RawData) (url' : String) (now' : DateTime),
        (rawChain2 d "status" "state" (.str "queued")).asStr? = none →
        createWorkOrderFromData d url' now' = none) := by
  constructor
  · have h0 : extractWorkOrdersFromDict [("tasks", .arr (pre ++ bad :: post))] url now =
        (pre ++ bad :: post).filterMap (fun it => createFromItem it url now) := rfl
    rw [h0, List.filterMap_append]
    simp [List.filterMap_cons, hbad]
  · intro d url' now' h
    exact createWorkOrderFromData_none_status d url' now' h

/-- C8, witness: a concrete batch `[good, bad, good]` whose middle
record has a numeric status. -/
theorem claim_C8_witness :
    createFromItem exBadItem "u" exT = none
    ∧ ((extractWorkOrdersFromDict
          [("tasks", .arr ([exGoodItem1] ++ exBadItem :: [exGoodItem2]))] "u" exT =
        [exGoodItem1].filterMap (fun it => createFromItem it "u" exT)
          ++ [exGoodItem2].filterMap (fun it => createFromItem it "u" exT))
      ∧ (∀ (d : RawData) (url' : String) (now' : DateTime),
          (rawChain2 d "status" "state" (.str "queued")).asStr? = none →
          createWorkOrderFromData d url' now' = none)) :=
  ⟨rfl, claim_C8 "u" exT [exGoodItem1] [exGoodItem2] exBadItem rfl⟩

/-- C9 (confirmed).  For a raw mapping carrying none of the id
fallback keys (`id`, `_id`, `work_order_id`), the normalizer derives
the id purely from the record's content — the first 12 hex digits of
the MD5 of `str(data)` — so two runs at different ingestion times and
source URLs produce the same id, and that id is never empty. -/
theorem claim_C9 (d : RawData) (url url' : String) (now now' : DateTime)
    (h1 : (dget? d "id").isNone = true) (h2 : (dget? d "_id").isNone = true)
    (h3 : (dget? d "work_order_id").isNone = true) :
    ((createWorkOrderFromData d url now).map (fun w => w.id)
        = (createWorkOrderFromData d url' now').map (fun w => w.id))
    ∧ (∀ w, createWorkOrderFromData d url now = some w →
        w.id = String.mk ((md5Hex (pyStr (.obj d))).data.take 12) ∧ w.id ≠ "") := by
  have hid : extractedId d = String.mk ((md5Hex (pyStr (.obj d))).data.take 12) :=
    extractedId_hash d (Option.isNone_iff_eq_none.mp h1)
      (Option.isNone_iff_eq_none.mp h2) (Option.isNone_iff_eq_none.mp h3)
  rcases hs : (rawChain2 d "status" "state" (.str "queued")).asStr? with _ | s
  · rw [createWorkOrderFromData_none_status d url now hs,
      createWorkOrderFromData_none_status d url' now' hs]
    exact ⟨rfl, fun w hw => absurd hw (by simp)⟩
  · rcases hp : (rawChain2 d "priority" "urgency" (.str "medium")).asStr? with _ | p
    · rw [createWorkOrderFromData_none_priority d url now s (asStr?_eq_some hs) hp,
        createWorkOrderFromData_none_priority d url' now' s (asStr?_eq_some hs) hp]
      exact ⟨rfl, fun w hw => absurd hw (by simp)⟩
    · rw [createWorkOrderFromData_ok d url now s p hs hp,
        createWorkOrderFromData_ok d url' now' s p hs hp]
      refine ⟨rfl, fun w hw => ?_⟩
      obtain rfl := (Option.some.inj hw).symm
      refine ⟨hid, ?_⟩
      rw [show (normalizedRecord d url now s p).id = extractedId d from rfl, hid]
      exact hashId_ne_empty d

/-- C9, witness: the id-determinism contract instantiated at the
spec's concrete raw mapping (which has no id keys). -/
theorem claim_C9_witness :
    ((dget? exRaw "id").isNone = true ∧ (dget? exRaw "_id").isNone = true
      ∧ (dget? exRaw "work_order_id").isNone = true)
    ∧ ((createWorkOrderFromData exRaw "u" exT).map (fun w => w.id)
        = (createWorkOrderFromData exRaw "v" ⟨2025, 1, 2, 3, 4, 5, 6⟩).map (fun w => w.id))
    ∧ (∀ w, createWorkOrderFromData exRaw "u" exT = some w →
        w.id = String.mk ((md5Hex (pyStr (.obj exRaw))).data.take 12) ∧ w.id ≠ "") :=
  ⟨⟨by decide, by decide, by decide⟩,
    (claim_C9 exRaw "u" "v" exT ⟨2025, 1, 2, 3, 4, 5, 6⟩
      (by decide) (by decide) (by decide)).1,
    (claim_C9 exRaw "u" "v" exT ⟨2025, 1, 2, 3, 4, 5, 6⟩
      (by decide) (by decide) (by decide)).2⟩

/-- C10 (confirmed).  Every WorkOrder the normalizer produces has a
non-null `due_date`: the due chain is always passed through
`_parse_timestamp`, which returns the ingestion time `now` when the
key is missing (or falsy) and when a string value fails every format
of the parse list (with the optional `dateutil` fallback absent, as
the source's `except ImportError` anticipates). -/
theorem claim_C10 :
    (∀ (d : RawData) (url : String) (now : DateTime) (w : WorkOrder),
        createWorkOrderFromData d url now = some w → w.due_date.isSome = true)
    ∧ (∀ (d : RawData) (url : String) (now : DateTime) (w : WorkOrder),
        dget? d "due_date" = none → dget? d "deadline" = none → dget? d "due" = none →
        createWorkOrderFromData d url now = some w → w.due_date = some now)
    ∧ (∀ (s : String) (now : DateTime), tryFormats s = none →
        parseTimestamp (some (.str s)) now = now) := by
  refine ⟨?_, ?_, ?_⟩
  · intro d url now w hw
    obtain ⟨s, p, _, _, rfl⟩ := create_some_fields d url now w hw
    rfl
  · intro d url now w hd1 hd2 hd3 hw
    obtain ⟨s, p, _, _, rfl⟩ := create_some_fields d url now w hw
    show some (parseTimestamp (rawChainO3 d "due_date" "deadline" "due") now) = some now
    rw [rawChainO3, hd1, hd2, hd3]
    rfl
  · intro s now h
    by_cases hse : s = ""
    · subst hse
      rfl
    · simp [parseTimestamp, pyFalsy, hse, h]

/-- C10, witness: a raw mapping without due keys normalizes with
`due_date` equal to the ingestion time, and a concrete garbage
timestamp string falls back to the ingestion time. -/
theorem claim_C10_witness :
    (dget? exRawNoDue "due_date" = none ∧ dget? exRawNoDue "deadline" = none
      ∧ dget? exRawNoDue "due" = none)
    ∧ (∀ w, createWorkOrderFromData exRawNoDue "u" exT = some w → w.due_date = some exT)
    ∧ (tryFormats "not-a-date" = none
      ∧ parseTimestamp (some (.str "not-a-date")) exT = exT) :=
  ⟨⟨rfl, rfl, rfl⟩,
    fun w hw => claim_C10.2.1 exRawNoDue "u" exT w rfl rfl rfl hw,
    ⟨by decide, claim_C10.2.2 "not-a-date" exT (by decide)⟩⟩

/-- C7 (confirmed).  Importing the same document a second time into the
same index leaves `statistics().total` unchanged: the second pass
re-adds exactly the ids the first pass added (import aborts at the
same record, if any), and re-adding an existing id replaces in the
primary store without changing its size. -/
theorem claim_C7 (idx : WorkOrderIndex) (doc : ExportDoc) :
    ((idx.importFromJson doc).1.importFromJson doc).1.getStatistics.total_work_orders
      = (idx.importFromJson doc).1.getStatistics.total_work_orders := by
  simp only [WorkOrderIndex.importFromJson, importLoop_eq, WorkOrderIndex.getStatistics]
  exact length_addAll_of_mem _ _
    (fun w hw => isSome_dget?_addAll_of_mem idx (okInits doc.work_orders) w hw)

end TeeItUp
